import Mathlib

/-!
ContentWindow (src/app/src/app/windows/ContentWindow.js)

A shallow embedding of the `ContentWindow` class and a verification of its
observable contract.

* JavaScript values are the type `JSValue`; a plain object is an ordered list of
  own properties (`JSObject`), read with `getProp` (`o[k]`, `undefined` when the
  key is absent) and written with `setProp` (`o[k] = v`).
* The object that `Object.assign` fills from `webPreferences`, which may hold any
  key, is held with its prototype (`ProtoObject`): a write of the key `__proto__`
  replaces the prototype, and reads go through it.
* JavaScript strings are Lean strings (sequences of Unicode scalar values) and the
  integers returned by `getPosition` / `getSize` are Lean integers.
* The instance is the record `ContentWindow`; each method is a function from the
  state before the call to the state after it.  Calls into Electron
  (`webContents.send`, `shell.openExternal`, `window.on`, `webContents.on`,
  `mouseFB.register`) and into the base class (`super.start`,
  `super.createWindow`) append to a log held in the record.
-/

namespace Wavebox

/-! ## JavaScript values and objects -/

/-- A JavaScript value: the primitives and plain objects (own properties in
insertion order). -/
inductive JSValue where
  | undefined
  | null
  | bool (b : Bool)
  | num (n : Int)
  | str (s : String)
  | obj (fields : List (String × JSValue))

/-- A plain JavaScript object: its own enumerable properties in insertion order. -/
abbrev JSObject := List (String × JSValue)

mutual
/-- Decidable equality of values. -/
def JSValue.decEq : (a b : JSValue) → Decidable (a = b)
  | .undefined, .undefined => isTrue rfl
  | .null, .null => isTrue rfl
  | .bool a, .bool b =>
    if h : a = b then isTrue (by rw [h]) else isFalse (by intro e; cases e; exact h rfl)
  | .num a, .num b =>
    if h : a = b then isTrue (by rw [h]) else isFalse (by intro e; cases e; exact h rfl)
  | .str a, .str b =>
    if h : a = b then isTrue (by rw [h]) else isFalse (by intro e; cases e; exact h rfl)
  | .obj a, .obj b =>
    match JSValue.decEqFields a b with
    | isTrue h => isTrue (by rw [h])
    | isFalse h => isFalse (by intro e; cases e; exact h rfl)
  | .undefined, .null | .undefined, .bool _ | .undefined, .num _ | .undefined, .str _
  | .undefined, .obj _ => isFalse (by intro e; cases e)
  | .null, .undefined | .null, .bool _ | .null, .num _ | .null, .str _
  | .null, .obj _ => isFalse (by intro e; cases e)
  | .bool _, .undefined | .bool _, .null | .bool _, .num _ | .bool _, .str _
  | .bool _, .obj _ => isFalse (by intro e; cases e)
  | .num _, .undefined | .num _, .null | .num _, .bool _ | .num _, .str _
  | .num _, .obj _ => isFalse (by intro e; cases e)
  | .str _, .undefined | .str _, .null | .str _, .bool _ | .str _, .num _
  | .str _, .obj _ => isFalse (by intro e; cases e)
  | .obj _, .undefined | .obj _, .null | .obj _, .bool _ | .obj _, .num _
  | .obj _, .str _ => isFalse (by intro e; cases e)
/-- Decidable equality of property lists. -/
def JSValue.decEqFields : (a b : List (String × JSValue)) → Decidable (a = b)
  | [], [] => isTrue rfl
  | [], _ :: _ => isFalse (by intro e; cases e)
  | _ :: _, [] => isFalse (by intro e; cases e)
  | (k, v) :: as, (k2, v2) :: bs =>
    if hk : k = k2 then
      match JSValue.decEq v v2 with
      | isTrue hv =>
        match JSValue.decEqFields as bs with
        | isTrue hr => isTrue (by rw [hk, hv, hr])
        | isFalse hr => isFalse (by intro e; cases e; exact hr rfl)
      | isFalse hv => isFalse (by intro e; cases e; exact hv rfl)
    else isFalse (by intro e; cases e; exact hk rfl)
end

instance : DecidableEq JSValue := JSValue.decEq

/-- Property read `o[k]`: the value of the own property `k`, `undefined` when
there is none. -/
def getProp : JSObject → String → JSValue
  | [], _ => JSValue.undefined
  | (k0, v0) :: rest, k => if k0 = k then v0 else getProp rest k

/-- Property write `o[k] = v`: an existing property keeps its place, a new one is
added last. -/
def setProp : JSObject → String → JSValue → JSObject
  | [], k, v => [(k, v)]
  | (k0, v0) :: rest, k, v => if k0 = k then (k0, v) :: rest else (k0, v0) :: setProp rest k v

/-- Own property keys, `Object.keys(o)`. -/
def keys (o : JSObject) : List String := o.map Prod.fst

/-- One source of `Object.assign` when no key of `source` is `__proto__`: for each
own key of `source`, in order, `target[key] = source[key]`, an own-property write.
The sources of the `Object.assign` of lines 74 to 92 hold only fixed keys; a source
that may hold any key is assigned with `protoAssignFrom`. -/
def assignFrom (target source : JSObject) : JSObject :=
  (keys source).foldl (fun acc k => setProp acc k (getProp source k)) target

/-- The call `Object.assign(target, ...sources)` when no key of a source is
`__proto__`; a source that is `undefined` (`none`) is skipped. -/
def objectAssign (target : JSObject) (sources : List (Option JSObject)) : JSObject :=
  sources.foldl
    (fun acc s =>
      match s with
      | some o => assignFrom acc o
      | none => acc)
    target

/-! ## Objects with a prototype

A write `o[k] = v` with the key `__proto__` does not store an own property when it
reaches the accessor `__proto__` of `Object.prototype`: it replaces the prototype of
`o`.  `Object.assign` writes in this way, so the object it fills is held together
with its prototype. -/

/-- The prototype of an object: `Object.prototype` (the prototype of every object
literal), `null`, or a plain object. -/
inductive Proto where
  | objectPrototype
  | null
  | object (fields : JSObject)
  deriving DecidableEq

/-- An object held with its prototype: its own properties and what it inherits
from. -/
structure ProtoObject where
  own : JSObject
  proto : Proto
  deriving DecidableEq

/-- A plain object, as an object literal or `JSON.parse` makes it: its prototype is
`Object.prototype`. -/
def plainObject (o : JSObject) : ProtoObject :=
  { own := o, proto := Proto.objectPrototype }

/-- Property read `o[k]` through the prototype: the own property, else the property
of the prototype object, else the accessor `__proto__`, which gives the prototype
object.  As in `getProp`, what `Object.prototype` itself holds is read as
`undefined`. -/
def protoGet (o : ProtoObject) (k : String) : JSValue :=
  if k ∈ keys o.own then getProp o.own k
  else
    match o.proto with
    | Proto.objectPrototype => JSValue.undefined
    | Proto.null => JSValue.undefined
    | Proto.object p =>
      if k ∈ keys p then getProp p k
      else if k = "__proto__" then JSValue.obj p
      else JSValue.undefined

/-- Whether a write of the key `__proto__` to an object that has no such own
property reaches the accessor of `Object.prototype`: not with the prototype `null`,
and not when the prototype object has an own data property `__proto__`. -/
def reachesProtoSetter : Proto → Bool
  | Proto.objectPrototype => true
  | Proto.null => false
  | Proto.object p => !(keys p).contains "__proto__"

/-- Property write `o[k] = v` through the prototype.  The key `__proto__` that
reaches the accessor of `Object.prototype` makes an object or `null` the new
prototype and ignores any other value; every other write stores an own property. -/
def protoSet (o : ProtoObject) (k : String) (v : JSValue) : ProtoObject :=
  if k = "__proto__" ∧ k ∉ keys o.own ∧ reachesProtoSetter o.proto = true then
    match v with
    | JSValue.obj p => { o with proto := Proto.object p }
    | JSValue.null => { o with proto := Proto.null }
    | _ => o
  else { o with own := setProp o.own k v }

/-- One source of `Object.assign`: for each own key of `source`, in order,
`target[key] = source[key]`. -/
def protoAssignFrom (target : ProtoObject) (source : JSObject) : ProtoObject :=
  (keys source).foldl (fun acc k => protoSet acc k (getProp source k)) target

/-- The call `Object.assign(target, ...sources)`; a source that is `undefined`
(`none`) is skipped. -/
def protoAssign (target : ProtoObject) (sources : List (Option JSObject)) : ProtoObject :=
  sources.foldl
    (fun acc s =>
      match s with
      | some o => protoAssignFrom acc o
      | none => acc)
    target

/-! ## Module constants -/

/-- The allow-list `SAFE_CONFIG_KEYS`. -/
def SAFE_CONFIG_KEYS : List String :=
  ["width", "height", "x", "y", "minWidth", "minHeight", "maxWidth", "maxHeight",
   "resizable", "title"]

/-- The list `COPY_WEBVIEW_WEB_PREFERENCES_KEYS`. -/
def COPY_WEBVIEW_WEB_PREFERENCES_KEYS : List String :=
  ["guestInstanceId", "openerId", "partition"]

/-- The list `COPY_WEBVIEW_PROP_KEYS`. -/
def COPY_WEBVIEW_PROP_KEYS : List String :=
  ["partition"]

/-! ## The query-string library used by `generateWindowUrl` -/

/-- Modelled from the spec: the table of characters that standard query-string
serialization (`querystring.escape`, not part of the sources) leaves unescaped:
letters, digits and `- _ . ! ~ * ( )` with the apostrophe. -/
def noEscape (c : Char) : Bool :=
  let n := c.toNat
  (65 ≤ n && n ≤ 90) || (97 ≤ n && n ≤ 122) || (48 ≤ n && n ≤ 57) ||
  n = 45 || n = 95 || n = 46 || n = 33 || n = 126 || n = 42 || n = 39 || n = 40 || n = 41

/-- Modelled from the spec: one upper-case hexadecimal digit of the percent
encoding. -/
def hexDigit (n : Nat) : Char :=
  if n < 10 then Char.ofNat (48 + n) else Char.ofNat (55 + n)

/-- Modelled from the spec: the percent-encoding `%XX` of one byte. -/
def hexTable (b : Nat) : List Char :=
  ['%', hexDigit (b / 16), hexDigit (b % 16)]

/-- Modelled from the spec: the UTF-8 bytes of a code point, as the percent
encoding of the query-string library emits them. -/
def utf8Bytes (c : Nat) : List Nat :=
  if c < 0x80 then [c]
  else if c < 0x800 then [0xC0 + c / 64, 0x80 + c % 64]
  else if c < 0x10000 then [0xE0 + c / 4096, 0x80 + c / 64 % 64, 0x80 + c % 64]
  else [0xF0 + c / 262144, 0x80 + c / 4096 % 64, 0x80 + c / 64 % 64, 0x80 + c % 64]

/-- Modelled from the spec: every byte of a list percent-encoded. -/
def hexBytes : List Nat → List Char
  | [] => []
  | b :: rest => hexTable b ++ hexBytes rest

/-- Modelled from the spec: the escape of one character. -/
def qsEscapeChar (c : Char) : List Char :=
  if noEscape c then [c] else hexBytes (utf8Bytes c.toNat)

/-- Modelled from the spec: the escape of a character sequence. -/
def qsEscapeChars : List Char → List Char
  | [] => []
  | c :: rest => qsEscapeChar c ++ qsEscapeChars rest

/-- Modelled from the spec: `querystring.escape`, standard query-string
percent-encoding (the library is not part of the sources). -/
def qsEscape (s : String) : String :=
  String.mk (qsEscapeChars s.data)

/-- Modelled from the spec: the conversion of a value to the string that
query-string serialization encodes: a string is itself, a number (an integer below
10^21 in absolute value) its decimal form, a boolean `true` or `false`, anything
else the empty string. -/
def stringifyPrimitive : JSValue → String
  | .str s => s
  | .num n => toString n
  | .bool true => "true"
  | .bool false => "false"
  | _ => ""

/-- Modelled from the spec: the fields `key=value` of `querystring.stringify`, one
per own key, joined with `&`. -/
def qsStringifyFields (obj : JSObject) : List String → String
  | [] => ""
  | [k] => qsEscape k ++ "=" ++ qsEscape (stringifyPrimitive (getProp obj k))
  | k :: k2 :: rest =>
    qsEscape k ++ "=" ++ qsEscape (stringifyPrimitive (getProp obj k)) ++ "&" ++
      qsStringifyFields obj (k2 :: rest)

/-- Modelled from the spec: `querystring.stringify(obj)`, standard query-string
serialization (the library is not part of the sources). -/
def qsStringify (obj : JSObject) : String :=
  qsStringifyFields obj (keys obj)

/-- Modelled from the spec: the value of a hexadecimal digit, in either case. -/
def hexVal (c : Char) : Option Nat :=
  let n := c.toNat
  if 48 ≤ n ∧ n ≤ 57 then some (n - 48)
  else if 65 ≤ n ∧ n ≤ 70 then some (n - 55)
  else if 97 ≤ n ∧ n ≤ 102 then some (n - 87)
  else none

/-- A unit of an escaped string: a character that stands for itself or a byte
written `%XX`. -/
inductive Tok where
  | lit (c : Char)
  | byte (b : Nat)
  deriving DecidableEq

/-- Modelled from the spec: the first pass of standard query-string decoding, which
reads the `%XX` groups of an escaped string; a `%` not followed by two hexadecimal
digits has no reading. -/
def tokens : List Char → Option (List Tok)
  | [] => some []
  | c :: rest =>
    if c = '%' then
      match rest with
      | h1 :: h2 :: rest2 =>
        match hexVal h1, hexVal h2, tokens rest2 with
        | some a, some b, some ts => some (Tok.byte (a * 16 + b) :: ts)
        | _, _, _ => none
      | _ => none
    else
      match tokens rest with
      | some ts => some (Tok.lit c :: ts)
      | none => none

/-- A UTF-8 continuation byte. -/
def contByte (b : Nat) : Bool :=
  128 ≤ b && b < 192

/-- A multi-byte UTF-8 sequence that has been read in part: the number of
continuation bytes still to come, the value read so far and the least value the
sequence may stand for (a smaller one would be an overlong form). -/
structure Pending where
  need : Nat
  acc : Nat
  least : Nat
  deriving DecidableEq

/-- Modelled from the spec: the second pass of standard query-string decoding: a
plain `+` is a space, any other plain character is itself, and the escaped bytes are
read as UTF-8 (overlong forms, surrogates, values above 0x10FFFF and broken
sequences have no reading). -/
def decodeFrom : Option Pending → List Tok → Option (List Char)
  | none, [] => some []
  | some _, [] => none
  | none, Tok.lit c :: rest =>
    match decodeFrom none rest with
    | some cs => some ((if c = '+' then Char.ofNat 32 else c) :: cs)
    | none => none
  | some _, Tok.lit _ :: _ => none
  | none, Tok.byte b :: rest =>
    if b < 0x80 then
      match decodeFrom none rest with
      | some cs => some (Char.ofNat b :: cs)
      | none => none
    else if 0xC2 ≤ b ∧ b < 0xE0 then decodeFrom (some ⟨1, b - 0xC0, 0x80⟩) rest
    else if 0xE0 ≤ b ∧ b < 0xF0 then decodeFrom (some ⟨2, b - 0xE0, 0x800⟩) rest
    else if 0xF0 ≤ b ∧ b < 0xF8 then decodeFrom (some ⟨3, b - 0xF0, 0x10000⟩) rest
    else none
  | some p, Tok.byte b :: rest =>
    if contByte b then
      if p.need ≤ 1 then
        if p.least ≤ p.acc * 64 + (b - 0x80) ∧ p.acc * 64 + (b - 0x80) < 0x110000 ∧
            ¬ (0xD800 ≤ p.acc * 64 + (b - 0x80) ∧ p.acc * 64 + (b - 0x80) < 0xE000) then
          match decodeFrom none rest with
          | some cs => some (Char.ofNat (p.acc * 64 + (b - 0x80)) :: cs)
          | none => none
        else none
      else decodeFrom (some ⟨p.need - 1, p.acc * 64 + (b - 0x80), p.least⟩) rest
    else none

/-- Modelled from the spec: the second pass of standard query-string decoding,
started outside any multi-byte sequence. -/
def decodeToks (ts : List Tok) : Option (List Char) :=
  decodeFrom none ts

/-- Modelled from the spec: `querystring.unescape` on a well-formed escaped string;
an ill-formed one has no reading. -/
def qsUnescape (cs : List Char) : Option (List Char) :=
  match tokens cs with
  | some ts => decodeToks ts
  | none => none

/-- The pieces of a character sequence between the occurrences of `sep`. -/
def splitOnChar (sep : Char) : List Char → List (List Char)
  | [] => [[]]
  | c :: rest =>
    if c = sep then [] :: splitOnChar sep rest
    else
      match splitOnChar sep rest with
      | [] => [[c]]
      | hd :: tl => (c :: hd) :: tl

/-- The part before the first `sep` and the part after it (empty when there is no
`sep`). -/
def splitFirst (sep : Char) : List Char → List Char × List Char
  | [] => ([], [])
  | c :: rest =>
    if c = sep then ([], rest)
    else ((c :: (splitFirst sep rest).1), (splitFirst sep rest).2)

/-- Modelled from the spec: one `key=value` field decoded. -/
def qsParseField (seg : List Char) : Option (String × String) :=
  match qsUnescape (splitFirst '=' seg).1, qsUnescape (splitFirst '=' seg).2 with
  | some k, some v => some (String.mk k, String.mk v)
  | _, _ => none

/-- Modelled from the spec: every field of a list decoded, in order. -/
def qsParseFields : List (List Char) → Option (List (String × String))
  | [] => some []
  | seg :: rest =>
    match qsParseField seg, qsParseFields rest with
    | some kv, some kvs => some (kv :: kvs)
    | _, _ => none

/-- Modelled from the spec: standard query-string decoding (`querystring.parse`,
not part of the sources): the string is cut at every `&`, empty pieces are dropped,
each piece is cut at its first `=` and both halves are unescaped.  The result lists
the parameters in order. -/
def qsParse (qs : String) : Option (List (String × String)) :=
  qsParseFields ((splitOnChar '&' qs.data).filter (fun seg => !seg.isEmpty))

/-- The query string of a URL: the part after the first `?`. -/
def queryOf (url : String) : String :=
  String.mk (splitFirst '?' url.data).2

/-! ## The class `ContentWindow` -/

/-- What `start` reads from the parent window: `isFullScreen()`, `isMaximized()`,
`getPosition()` and `getSize()`. -/
structure ParentWindow where
  isFullScreen : Bool
  isMaximized : Bool
  getPosition : Int × Int
  getSize : Int × Int
  deriving DecidableEq

/-- The callbacks that `createWindow` and `registerLinuxMouseNavigation` hand to
Electron and to `mouseFB.register`. -/
inductive Listener where
  | newWindow
  | willAttachWebview
  | appCommand
  | focus
  | mouseButton
  deriving DecidableEq

/-- The instance state and the log of its calls into Electron and the base
class. -/
structure ContentWindow where
  /-- The field `this.guestWebPreferences`; `none` before `start` has set it. -/
  guestWebPreferences : Option ProtoObject
  /-- The calls `this.window.webContents.send(channel, payload)`. -/
  sent : List (String × JSValue)
  /-- The calls `shell.openExternal(url)`. -/
  openedExternal : List JSValue
  /-- The calls `this.window.webContents.on(event, listener)`. -/
  webContentsListeners : List (String × Listener)
  /-- The calls `this.window.on(event, listener)`. -/
  windowListeners : List (String × Listener)
  /-- The calls `mouseFB.register(listener, handle)`. -/
  mouseListeners : List Listener
  /-- The calls `super.start(url, windowPreferences)`. -/
  superStartCalls : List (String × JSObject)
  /-- The calls `super.createWindow(...arguments)`. -/
  superCreateWindowCalls : List (List JSValue)
  deriving DecidableEq

/-- The method `generateWindowUrl(url, partition)`.  `contentPage` is the value of
`path.join(CONTENT_DIR, 'content.html')`, fixed by where the application is
installed. -/
def generateWindowUrl (contentPage : String) (url partition : JSValue) : String :=
  "file://" ++ contentPage ++ "?" ++ qsStringify [("url", url), ("partition", partition)]

/-- The value stored in `this.guestWebPreferences` by `start`:
`Object.assign({}, webPreferences, { partition: partition })`.  The target is a new
object literal; `webPreferences` may hold any key, `__proto__` included. -/
def guestWebPreferencesOf (webPreferences : JSObject) (partition : JSValue) : ProtoObject :=
  protoAssign (plainObject []) [some webPreferences, some [("partition", partition)]]

/-- The constant `parentSizing` of `start`. -/
def parentSizing (parentWindow : ParentWindow) : Option JSObject :=
  let copyPosition := !parentWindow.isFullScreen && !parentWindow.isMaximized
  if copyPosition then
    some [("x", JSValue.num (parentWindow.getPosition.1 + 20)),
          ("y", JSValue.num (parentWindow.getPosition.2 + 20)),
          ("width", JSValue.num parentWindow.getSize.1),
          ("height", JSValue.num parentWindow.getSize.2)]
  else none

/-- The `SAFE_CONFIG_KEYS.reduce(...)` of `start`: the allow-listed keys of
`windowPreferences` whose value is not `undefined`. -/
def safeWindowPreferences (windowPreferences : JSObject) : JSObject :=
  SAFE_CONFIG_KEYS.foldl
    (fun acc k =>
      if getProp windowPreferences k ≠ JSValue.undefined then
        setProp acc k (getProp windowPreferences k)
      else acc)
    []

/-- The fixed defaults of `start`, the first argument of its `Object.assign`. -/
def defaultWindowPreferences : JSObject :=
  [("minWidth", JSValue.num 300),
   ("minHeight", JSValue.num 300),
   ("fullscreenable", JSValue.bool true),
   ("title", JSValue.str "Wavebox"),
   ("backgroundColor", JSValue.str "#f2f2f2"),
   ("webPreferences", JSValue.obj [("nodeIntegration", JSValue.bool true)])]

/-- The constant `fullWindowPreferences` of `start`. -/
def fullWindowPreferences (parentWindow : ParentWindow) (windowPreferences : JSObject) :
    JSObject :=
  objectAssign defaultWindowPreferences
    [parentSizing parentWindow, some (safeWindowPreferences windowPreferences)]

/-- The method `start(parentWindow, url, partition, windowPreferences, webPreferences)`;
an omitted (`undefined`) preference argument is `none` and defaults to the empty
object. -/
def ContentWindow.start (self : ContentWindow) (contentPage : String)
    (parentWindow : ParentWindow) (url partition : JSValue)
    (windowPreferences webPreferences : Option JSObject) : ContentWindow :=
  { self with
    guestWebPreferences := some (guestWebPreferencesOf (webPreferences.getD []) partition)
    superStartCalls := self.superStartCalls ++
      [(generateWindowUrl contentPage url partition,
        fullWindowPreferences parentWindow (windowPreferences.getD []))] }

/-- The loop `keys.forEach((k) => { if (guest[k] !== undefined) { target[k] = guest[k] } })`
of the will-attach-webview listener. -/
def copyKeys (ks : List String) (guest : ProtoObject) (target : JSObject) : JSObject :=
  ks.foldl
    (fun acc k =>
      if protoGet guest k ≠ JSValue.undefined then setProp acc k (protoGet guest k) else acc)
    target

/-- The will-attach-webview listener: the webview's `webPreferences` and
`properties` after it has run.  Reading a property of an unset
`this.guestWebPreferences` throws (`none`). -/
def ContentWindow.onWillAttachWebview (self : ContentWindow)
    (webPreferences properties : JSObject) : Option (JSObject × JSObject) :=
  match self.guestWebPreferences with
  | some guest =>
    some (copyKeys COPY_WEBVIEW_WEB_PREFERENCES_KEYS guest webPreferences,
          copyKeys COPY_WEBVIEW_PROP_KEYS guest properties)
  | none => none

/-- The method `reload()`; the value is `this` after the call. -/
def ContentWindow.reload (self : ContentWindow) : ContentWindow :=
  { self with sent := self.sent ++ [("reload-webview", JSValue.obj [])] }

/-- The method `navigateBack()`; the value is `this` after the call. -/
def ContentWindow.navigateBack (self : ContentWindow) : ContentWindow :=
  { self with sent := self.sent ++ [("navigate-webview-back", JSValue.obj [])] }

/-- The method `navigateForward()`; the value is `this` after the call. -/
def ContentWindow.navigateForward (self : ContentWindow) : ContentWindow :=
  { self with sent := self.sent ++ [("navigate-webview-forward", JSValue.obj [])] }

/-- The new-window listener: `evt.preventDefault()` (the returned flag) and
`shell.openExternal(url)`. -/
def ContentWindow.onNewWindow (self : ContentWindow) (url : JSValue) : ContentWindow × Bool :=
  ({ self with openedExternal := self.openedExternal ++ [url] }, true)

/-- The win32 app-command listener. -/
def ContentWindow.onAppCommand (self : ContentWindow) (cmd : JSValue) : ContentWindow :=
  if cmd = JSValue.str "browser-backward" then self.navigateBack
  else if cmd = JSValue.str "browser-forward" then self.navigateForward
  else self

/-- The callback that `registerLinuxMouseNavigation` gives to `mouseFB.register`. -/
def ContentWindow.onMouseButton (self : ContentWindow) (btn : JSValue) : ContentWindow :=
  if btn = JSValue.str "back" then self.navigateBack
  else if btn = JSValue.str "forward" then self.navigateForward
  else self

/-- The method `registerLinuxMouseNavigation()`. -/
def ContentWindow.registerLinuxMouseNavigation (self : ContentWindow) : ContentWindow :=
  { self with mouseListeners := self.mouseListeners ++ [Listener.mouseButton] }

/-- The focus listener registered on Linux. -/
def ContentWindow.onFocus (self : ContentWindow) : ContentWindow :=
  self.registerLinuxMouseNavigation

/-- The method `createWindow(...arguments)` on the platform `platform`
(`process.platform`). -/
def ContentWindow.createWindow (self : ContentWindow) (platform : String)
    (arguments : List JSValue) : ContentWindow :=
  let s1 : ContentWindow :=
    { self with superCreateWindowCalls := self.superCreateWindowCalls ++ [arguments] }
  let s2 : ContentWindow :=
    { s1 with webContentsListeners := s1.webContentsListeners ++
        [("new-window", Listener.newWindow)] }
  let s3 : ContentWindow :=
    { s2 with webContentsListeners := s2.webContentsListeners ++
        [("will-attach-webview", Listener.willAttachWebview)] }
  if platform = "win32" then
    { s3 with windowListeners := s3.windowListeners ++ [("app-command", Listener.appCommand)] }
  else if platform = "linux" then
    let s4 := s3.registerLinuxMouseNavigation
    { s4 with windowListeners := s4.windowListeners ++ [("focus", Listener.focus)] }
  else s3

/-- Running a registered listener on the instance with the first data argument
`arg` of the event (the url, the command, the button); the will-attach-webview
listener changes its arguments, not the instance. -/
def Listener.fire (l : Listener) (self : ContentWindow) (arg : JSValue) : ContentWindow :=
  match l with
  | Listener.newWindow => (self.onNewWindow arg).1
  | Listener.willAttachWebview => self
  | Listener.appCommand => self.onAppCommand arg
  | Listener.focus => self.onFocus
  | Listener.mouseButton => self.onMouseButton arg

/-- A fresh instance: nothing stored, nothing logged. -/
def ContentWindow.fresh : ContentWindow :=
  { guestWebPreferences := none, sent := [], openedExternal := [],
    webContentsListeners := [], windowListeners := [], mouseListeners := [],
    superStartCalls := [], superCreateWindowCalls := [] }

/-- Two instance states that differ at most in the messages sent to the hosted
content. -/
def ContentWindow.sameExceptSent (a b : ContentWindow) : Prop :=
  a.guestWebPreferences = b.guestWebPreferences ∧
  a.openedExternal = b.openedExternal ∧
  a.webContentsListeners = b.webContentsListeners ∧
  a.windowListeners = b.windowListeners ∧
  a.mouseListeners = b.mouseListeners ∧
  a.superStartCalls = b.superStartCalls ∧
  a.superCreateWindowCalls = b.superCreateWindowCalls

/-! ## Objects by reference

The caller of `start` keeps a reference to the `webPreferences` object it passes.
To speak about that object after the call, line 58 of `start` is also given on a
store of objects addressed by reference. -/

/-- A store of objects, each with its prototype; a reference is a position in it. -/
abbrev Store := List ProtoObject

/-- The object a reference points to. -/
def storeRead (st : Store) (r : Nat) : ProtoObject := st.getD r (plainObject [])

/-- An object literal: the store with the new object, and the reference to it. -/
def storeAlloc (st : Store) (o : JSObject) : Store × Nat :=
  (st ++ [plainObject o], st.length)

/-- The call `Object.assign(target, ...sources)` on references: the own properties
of the sources are read one after the other and only the object at `target` is
written. -/
def storeAssign (st : Store) (target : Nat) (sources : List (Option Nat)) : Store :=
  sources.foldl
    (fun acc s =>
      match s with
      | some r =>
        acc.set target (protoAssignFrom (storeRead acc target) (storeRead acc r).own)
      | none => acc)
    st

/-- Line 58 of `start` on references:
`Object.assign({}, webPreferences, { partition: partition })`, where `webPreferences`
is the reference the caller passed.  The value is the store after the call and the
reference kept in `this.guestWebPreferences`. -/
def storeGuestWebPreferences (st : Store) (webPreferences : Nat) (partition : JSValue) :
    Store × Nat :=
  let target := storeAlloc st []
  let literal := storeAlloc target.1 [("partition", partition)]
  (storeAssign literal.1 target.2 [some webPreferences, some literal.2], target.2)

/-! ## Objects: reading after writing -/

theorem getProp_setProp (o : JSObject) (k : String) (v : JSValue) (k2 : String) :
    getProp (setProp o k v) k2 = if k = k2 then v else getProp o k2 := by
  induction o with
  | nil => simp [setProp, getProp]
  | cons kv rest ih =>
    obtain ⟨k0, v0⟩ := kv
    by_cases h0 : k0 = k
    · subst h0
      by_cases h2 : k0 = k2 <;> simp [setProp, getProp, h2]
    · by_cases h2 : k0 = k2
      · subst h2
        have h3 : ¬ k = k0 := fun e => h0 e.symm
        simp [setProp, getProp, h0, h3]
      · simp [setProp, getProp, h0, h2, ih]

theorem mem_keys_setProp (o : JSObject) (k : String) (v : JSValue) (k2 : String) :
    k2 ∈ keys (setProp o k v) ↔ k2 = k ∨ k2 ∈ keys o := by
  induction o with
  | nil => simp [setProp, keys]
  | cons kv rest ih =>
    obtain ⟨k0, v0⟩ := kv
    by_cases h0 : k0 = k
    · subst h0
      simp [setProp, keys]
    · have ih2 : k2 ∈ List.map Prod.fst (setProp rest k v) ↔
          k2 = k ∨ k2 ∈ List.map Prod.fst rest := ih
      simp only [setProp, h0, if_false, keys, List.map_cons, List.mem_cons, ih2]
      tauto

theorem getProp_eq_undefined_of_not_mem (o : JSObject) (k : String) (h : k ∉ keys o) :
    getProp o k = JSValue.undefined := by
  induction o with
  | nil => rfl
  | cons kv rest ih =>
    obtain ⟨k0, v0⟩ := kv
    simp only [keys, List.map_cons, List.mem_cons, not_or] at h
    have h0 : ¬ k0 = k := fun e => h.1 e.symm
    simp only [getProp, h0, if_false]
    exact ih h.2

/-! ## The copy loop shared by `start` and the will-attach-webview listener -/

theorem getProp_copyFold (read : String → JSValue) (ks : List String) (t : JSObject)
    (k : String) :
    getProp
        (ks.foldl
          (fun acc k => if read k ≠ JSValue.undefined then setProp acc k (read k) else acc) t)
        k =
      if k ∈ ks ∧ read k ≠ JSValue.undefined then read k else getProp t k := by
  induction ks generalizing t with
  | nil => simp
  | cons k0 ks ih =>
    rw [List.foldl_cons, ih]
    by_cases hg : read k = JSValue.undefined
    · by_cases h0 : read k0 = JSValue.undefined
      · simp [hg, h0]
      · by_cases hk : k0 = k
        · subst hk; exact absurd hg h0
        · simp [hg, h0, getProp_setProp, hk]
    · by_cases hk : k0 = k
      · subst hk
        by_cases hm : k0 ∈ ks
        · simp [hg, hm]
        · simp [hg, hm, getProp_setProp]
      · have hk2 : ¬ k = k0 := fun e => hk e.symm
        by_cases h0 : read k0 = JSValue.undefined
        · simp [hg, h0, hk2]
        · simp [hg, h0, hk2, getProp_setProp, hk]

theorem mem_keys_copyFold (read : String → JSValue) (ks : List String) (t : JSObject)
    (k : String) :
    k ∈ keys
        (ks.foldl
          (fun acc k => if read k ≠ JSValue.undefined then setProp acc k (read k) else acc) t) ↔
      (k ∈ ks ∧ read k ≠ JSValue.undefined) ∨ k ∈ keys t := by
  induction ks generalizing t with
  | nil => simp
  | cons k0 ks ih =>
    rw [List.foldl_cons, ih]
    by_cases h0 : read k0 = JSValue.undefined
    · simp only [h0, ne_eq, not_true_eq_false, if_false, List.mem_cons]
      constructor
      · rintro (⟨hm, hg⟩ | ht)
        · exact Or.inl ⟨Or.inr hm, hg⟩
        · exact Or.inr ht
      · rintro (⟨hm | hm, hg⟩ | ht)
        · subst hm; exact absurd h0 hg
        · exact Or.inl ⟨hm, hg⟩
        · exact Or.inr ht
    · simp only [ne_eq, h0, not_false_eq_true, if_true, mem_keys_setProp, List.mem_cons]
      constructor
      · rintro (⟨hm, hg⟩ | hk | ht)
        · exact Or.inl ⟨Or.inr hm, hg⟩
        · subst hk; exact Or.inl ⟨Or.inl rfl, h0⟩
        · exact Or.inr ht
      · rintro (⟨hm | hm, hg⟩ | ht)
        · exact Or.inr (Or.inl hm)
        · exact Or.inl ⟨hm, hg⟩
        · exact Or.inr (Or.inr ht)

theorem copyFold_congr (read1 read2 : String → JSValue) (ks : List String) (t : JSObject)
    (h : ∀ k ∈ ks, read1 k = read2 k) :
    ks.foldl
        (fun acc k => if read1 k ≠ JSValue.undefined then setProp acc k (read1 k) else acc) t =
      ks.foldl
        (fun acc k => if read2 k ≠ JSValue.undefined then setProp acc k (read2 k) else acc) t := by
  induction ks generalizing t with
  | nil => rfl
  | cons k0 ks ih =>
    rw [List.foldl_cons, List.foldl_cons, h k0 (List.mem_cons_self _ _)]
    exact ih _ (fun k hk => h k (List.mem_cons_of_mem _ hk))

theorem getProp_copyKeys (ks : List String) (g : ProtoObject) (t : JSObject) (k : String) :
    getProp (copyKeys ks g t) k =
      if k ∈ ks ∧ protoGet g k ≠ JSValue.undefined then protoGet g k else getProp t k :=
  getProp_copyFold (protoGet g) ks t k

theorem mem_keys_copyKeys (ks : List String) (g : ProtoObject) (t : JSObject) (k : String) :
    k ∈ keys (copyKeys ks g t) ↔
      (k ∈ ks ∧ protoGet g k ≠ JSValue.undefined) ∨ k ∈ keys t :=
  mem_keys_copyFold (protoGet g) ks t k

/-! ## `Object.assign` -/

theorem getProp_foldl_set (s : JSObject) (l : List String) (t : JSObject) (k : String) :
    getProp (l.foldl (fun acc k => setProp acc k (getProp s k)) t) k =
      if k ∈ l then getProp s k else getProp t k := by
  induction l generalizing t with
  | nil => simp
  | cons k0 l ih =>
    rw [List.foldl_cons, ih]
    by_cases hm : k ∈ l
    · simp [hm]
    · by_cases hk : k0 = k
      · subst hk; simp [hm, getProp_setProp]
      · have hk2 : ¬ k = k0 := fun e => hk e.symm
        simp [hm, getProp_setProp, hk, hk2]

theorem mem_keys_foldl_set (s : JSObject) (l : List String) (t : JSObject) (k : String) :
    k ∈ keys (l.foldl (fun acc k => setProp acc k (getProp s k)) t) ↔ k ∈ l ∨ k ∈ keys t := by
  induction l generalizing t with
  | nil => simp
  | cons k0 l ih =>
    rw [List.foldl_cons, ih, mem_keys_setProp, List.mem_cons]
    tauto

theorem getProp_assignFrom (t s : JSObject) (k : String) :
    getProp (assignFrom t s) k = if k ∈ keys s then getProp s k else getProp t k :=
  getProp_foldl_set s (keys s) t k

theorem mem_keys_assignFrom (t s : JSObject) (k : String) :
    k ∈ keys (assignFrom t s) ↔ k ∈ keys s ∨ k ∈ keys t :=
  mem_keys_foldl_set s (keys s) t k

/-! ## The merged configuration of `start` -/

theorem fullWindowPreferences_copy (p : ParentWindow) (wp : JSObject)
    (h : (!p.isFullScreen && !p.isMaximized) = true) :
    fullWindowPreferences p wp =
      assignFrom
        (assignFrom defaultWindowPreferences
          [("x", JSValue.num (p.getPosition.1 + 20)), ("y", JSValue.num (p.getPosition.2 + 20)),
           ("width", JSValue.num p.getSize.1), ("height", JSValue.num p.getSize.2)])
        (safeWindowPreferences wp) := by
  simp [fullWindowPreferences, parentSizing, objectAssign, h]

theorem fullWindowPreferences_nocopy (p : ParentWindow) (wp : JSObject)
    (h : (!p.isFullScreen && !p.isMaximized) = false) :
    fullWindowPreferences p wp = assignFrom defaultWindowPreferences (safeWindowPreferences wp) := by
  simp [fullWindowPreferences, parentSizing, objectAssign, h]

theorem mem_keys_safe (wp : JSObject) (k : String) :
    k ∈ keys (safeWindowPreferences wp) ↔
      k ∈ SAFE_CONFIG_KEYS ∧ getProp wp k ≠ JSValue.undefined := by
  have h := mem_keys_copyFold (getProp wp) SAFE_CONFIG_KEYS [] k
  simp only [keys, List.map_nil, List.not_mem_nil, or_false] at h
  exact h

theorem getProp_safe (wp : JSObject) (k : String) :
    getProp (safeWindowPreferences wp) k =
      if k ∈ SAFE_CONFIG_KEYS ∧ getProp wp k ≠ JSValue.undefined then getProp wp k
      else JSValue.undefined := by
  exact getProp_copyFold (getProp wp) SAFE_CONFIG_KEYS [] k

theorem mem_keys_full (p : ParentWindow) (wp : JSObject) (k : String) :
    k ∈ keys (fullWindowPreferences p wp) ↔
      (k ∈ SAFE_CONFIG_KEYS ∧ getProp wp k ≠ JSValue.undefined) ∨
      ((!p.isFullScreen && !p.isMaximized) = true ∧ k ∈ ["x", "y", "width", "height"]) ∨
      k ∈ keys defaultWindowPreferences := by
  cases h : (!p.isFullScreen && !p.isMaximized)
  · rw [fullWindowPreferences_nocopy p wp h, mem_keys_assignFrom, mem_keys_safe]
    simp
  · rw [fullWindowPreferences_copy p wp h, mem_keys_assignFrom, mem_keys_assignFrom,
      mem_keys_safe]
    simp [keys]

theorem getProp_full (p : ParentWindow) (wp : JSObject) (k : String) :
    getProp (fullWindowPreferences p wp) k =
      if k ∈ SAFE_CONFIG_KEYS ∧ getProp wp k ≠ JSValue.undefined then getProp wp k
      else if (!p.isFullScreen && !p.isMaximized) = true ∧ k ∈ ["x", "y", "width", "height"] then
        getProp
          [("x", JSValue.num (p.getPosition.1 + 20)), ("y", JSValue.num (p.getPosition.2 + 20)),
           ("width", JSValue.num p.getSize.1), ("height", JSValue.num p.getSize.2)] k
      else getProp defaultWindowPreferences k := by
  cases h : (!p.isFullScreen && !p.isMaximized)
  · rw [fullWindowPreferences_nocopy p wp h, getProp_assignFrom]
    by_cases hs : k ∈ SAFE_CONFIG_KEYS ∧ getProp wp k ≠ JSValue.undefined
    · simp [mem_keys_safe, getProp_safe, hs]
    · simp [mem_keys_safe, hs]
  · rw [fullWindowPreferences_copy p wp h, getProp_assignFrom, getProp_assignFrom]
    by_cases hs : k ∈ SAFE_CONFIG_KEYS ∧ getProp wp k ≠ JSValue.undefined
    · simp [mem_keys_safe, getProp_safe, hs]
    · have hk : k ∉ keys (safeWindowPreferences wp) := by rw [mem_keys_safe]; exact hs
      rw [if_neg hk, if_neg hs]
      simp [keys]

/-- The three keys of the fixed defaults of `start` that are not allow-listed. -/
theorem fixed_keys_not_safe :
    ∀ k ∈ ["fullscreenable", "backgroundColor", "webPreferences"],
      k ∉ SAFE_CONFIG_KEYS ∧ k ∉ ["x", "y", "width", "height"] := by
  decide

/-! ## Claims on `start` -/

/-- C1 (as amended): the configuration that `start` passes to the base window's
`start` is `fullWindowPreferences`; each of its keys is one of the ten allow-listed
keys or one of the three fixed default keys `fullscreenable`, `backgroundColor`,
`webPreferences`, and these three carry the fixed default values whatever
`windowPreferences` holds. -/
theorem C1_start_config_keys (self : ContentWindow) (contentPage : String)
    (parentWindow : ParentWindow) (url partition : JSValue)
    (windowPreferences webPreferences : Option JSObject) :
    (self.start contentPage parentWindow url partition windowPreferences
        webPreferences).superStartCalls =
      self.superStartCalls ++
        [(generateWindowUrl contentPage url partition,
          fullWindowPreferences parentWindow (windowPreferences.getD []))] ∧
    (∀ k ∈ keys (fullWindowPreferences parentWindow (windowPreferences.getD [])),
      k ∈ SAFE_CONFIG_KEYS ∨ k ∈ ["fullscreenable", "backgroundColor", "webPreferences"]) ∧
    getProp (fullWindowPreferences parentWindow (windowPreferences.getD [])) "fullscreenable" =
      JSValue.bool true ∧
    getProp (fullWindowPreferences parentWindow (windowPreferences.getD [])) "backgroundColor" =
      JSValue.str "#f2f2f2" ∧
    getProp (fullWindowPreferences parentWindow (windowPreferences.getD [])) "webPreferences" =
      JSValue.obj [("nodeIntegration", JSValue.bool true)] := by
  refine ⟨rfl, ?_, ?_, ?_, ?_⟩
  · intro k hk
    rw [mem_keys_full] at hk
    rcases hk with ⟨hs, _⟩ | ⟨_, hp⟩ | hd
    · exact Or.inl hs
    · left
      simp only [List.mem_cons, List.mem_singleton, List.not_mem_nil, or_false] at hp
      rcases hp with rfl | rfl | rfl | rfl <;> decide
    · simp only [keys, defaultWindowPreferences, List.map_cons, List.map_nil, List.mem_cons,
        List.not_mem_nil, or_false] at hd
      rcases hd with rfl | rfl | rfl | rfl | rfl | rfl <;> decide
  · rw [getProp_full, if_neg (fun h => (fixed_keys_not_safe _ (by decide)).1 h.1),
      if_neg (fun h => (fixed_keys_not_safe _ (by decide)).2 h.2)]
    decide
  · rw [getProp_full, if_neg (fun h => (fixed_keys_not_safe _ (by decide)).1 h.1),
      if_neg (fun h => (fixed_keys_not_safe _ (by decide)).2 h.2)]
    decide
  · rw [getProp_full, if_neg (fun h => (fixed_keys_not_safe _ (by decide)).1 h.1),
      if_neg (fun h => (fixed_keys_not_safe _ (by decide)).2 h.2)]
    decide

/-- C1, an instance of the amended statement: with a caller that supplies `width`
and a `webPreferences` entry, the key `width` of the merged configuration is
allow-listed and the entry `webPreferences` is the fixed default. -/
theorem C1_start_config_keys_witness :
    "width" ∈ keys (fullWindowPreferences ⟨false, false, (10, 20), (800, 600)⟩
      [("width", JSValue.num 500), ("webPreferences", JSValue.obj [("sandbox", JSValue.bool false)])]) ∧
    ("width" ∈ SAFE_CONFIG_KEYS ∨
      "width" ∈ ["fullscreenable", "backgroundColor", "webPreferences"]) ∧
    getProp (fullWindowPreferences ⟨false, false, (10, 20), (800, 600)⟩
      [("width", JSValue.num 500), ("webPreferences", JSValue.obj [("sandbox", JSValue.bool false)])])
      "webPreferences" = JSValue.obj [("nodeIntegration", JSValue.bool true)] :=
  ⟨by decide,
   (C1_start_config_keys ContentWindow.fresh "/app/scenes/content/content.html"
      ⟨false, false, (10, 20), (800, 600)⟩ (JSValue.str "https://example.com") (JSValue.str "partA")
      (some [("width", JSValue.num 500),
             ("webPreferences", JSValue.obj [("sandbox", JSValue.bool false)])])
      none).2.1 "width" (by decide),
   (C1_start_config_keys ContentWindow.fresh "/app/scenes/content/content.html"
      ⟨false, false, (10, 20), (800, 600)⟩ (JSValue.str "https://example.com") (JSValue.str "partA")
      (some [("width", JSValue.num 500),
             ("webPreferences", JSValue.obj [("sandbox", JSValue.bool false)])])
      none).2.2.2.2⟩

/-- C1 as stated fails: started with empty `windowPreferences` from a full-screen
parent, `start` passes a configuration that has the key `fullscreenable`, which is
not allow-listed. -/
theorem C1_counterexample :
    (ContentWindow.fresh.start "/app/scenes/content/content.html"
        ⟨true, false, (0, 0), (800, 600)⟩ (JSValue.str "https://example.com")
        (JSValue.str "partA") (some []) (some [])).superStartCalls =
      [("file:///app/scenes/content/content.html?url=https%3A%2F%2Fexample.com&partition=partA",
        [("minWidth", JSValue.num 300), ("minHeight", JSValue.num 300),
         ("fullscreenable", JSValue.bool true), ("title", JSValue.str "Wavebox"),
         ("backgroundColor", JSValue.str "#f2f2f2"),
         ("webPreferences", JSValue.obj [("nodeIntegration", JSValue.bool true)])])] ∧
    "fullscreenable" ∈ keys (fullWindowPreferences ⟨true, false, (0, 0), (800, 600)⟩ []) ∧
    "fullscreenable" ∉ SAFE_CONFIG_KEYS := by
  decide

/-- C2: keys of `windowPreferences` outside the allow-list do not influence the
configuration: two `windowPreferences` that agree on the ten allow-listed keys make
`start` pass the same url and the same merged configuration to the base window's
`start`, and the `webPreferences` entry of that configuration is
`{nodeIntegration: true}`. -/
theorem C2_start_ignores_other_keys (self : ContentWindow) (contentPage : String)
    (parentWindow : ParentWindow) (url partition : JSValue)
    (windowPreferences1 windowPreferences2 webPreferences : Option JSObject)
    (h : ∀ k ∈ SAFE_CONFIG_KEYS,
      getProp (windowPreferences1.getD []) k = getProp (windowPreferences2.getD []) k) :
    (self.start contentPage parentWindow url partition windowPreferences1
        webPreferences).superStartCalls =
      (self.start contentPage parentWindow url partition windowPreferences2
        webPreferences).superStartCalls ∧
    fullWindowPreferences parentWindow (windowPreferences1.getD []) =
      fullWindowPreferences parentWindow (windowPreferences2.getD []) ∧
    getProp (fullWindowPreferences parentWindow (windowPreferences1.getD [])) "webPreferences" =
      JSValue.obj [("nodeIntegration", JSValue.bool true)] := by
  have hsafe : safeWindowPreferences (windowPreferences1.getD []) =
      safeWindowPreferences (windowPreferences2.getD []) := by
    exact copyFold_congr (getProp (windowPreferences1.getD []))
      (getProp (windowPreferences2.getD [])) SAFE_CONFIG_KEYS [] h
  have hfull : fullWindowPreferences parentWindow (windowPreferences1.getD []) =
      fullWindowPreferences parentWindow (windowPreferences2.getD []) := by
    unfold fullWindowPreferences
    rw [hsafe]
  refine ⟨?_, hfull, ?_⟩
  · simp only [ContentWindow.start, hfull]
  · rw [getProp_full, if_neg (fun h => (fixed_keys_not_safe _ (by decide)).1 h.1),
      if_neg (fun h => (fixed_keys_not_safe _ (by decide)).2 h.2)]
    decide

/-- C2, an instance: a caller that adds `webPreferences` and `fullscreenable`
entries obtains the same configuration as one that supplies `width` alone. -/
theorem C2_start_ignores_other_keys_witness :
    (∀ k ∈ SAFE_CONFIG_KEYS,
      getProp ((some [("width", JSValue.num 500),
                      ("webPreferences", JSValue.obj [("nodeIntegration", JSValue.bool false)]),
                      ("fullscreenable", JSValue.bool false)] : Option JSObject).getD []) k =
      getProp ((some [("width", JSValue.num 500)] : Option JSObject).getD []) k) ∧
    fullWindowPreferences ⟨false, true, (10, 20), (800, 600)⟩
      ((some [("width", JSValue.num 500),
              ("webPreferences", JSValue.obj [("nodeIntegration", JSValue.bool false)]),
              ("fullscreenable", JSValue.bool false)] : Option JSObject).getD []) =
    fullWindowPreferences ⟨false, true, (10, 20), (800, 600)⟩
      ((some [("width", JSValue.num 500)] : Option JSObject).getD []) :=
  ⟨by decide,
   (C2_start_ignores_other_keys ContentWindow.fresh "/app/scenes/content/content.html"
      ⟨false, true, (10, 20), (800, 600)⟩ (JSValue.str "https://example.com") (JSValue.str "partA")
      (some [("width", JSValue.num 500),
             ("webPreferences", JSValue.obj [("nodeIntegration", JSValue.bool false)]),
             ("fullscreenable", JSValue.bool false)])
      (some [("width", JSValue.num 500)]) none (by decide)).2.1⟩

/-- C5: when `windowPreferences` supplies none of `x`, `y`, `width`, `height`, the
configuration that `start` builds has none of these four entries if the parent is
full-screen or maximized, and otherwise has `x` and `y` equal to the parent position
plus 20 and `width` and `height` equal to the parent size. -/
theorem C5_parent_sizing (self : ContentWindow) (contentPage : String)
    (parentWindow : ParentWindow) (url partition : JSValue)
    (windowPreferences webPreferences : Option JSObject)
    (h : ∀ k ∈ ["x", "y", "width", "height"],
      getProp (windowPreferences.getD []) k = JSValue.undefined) :
    (self.start contentPage parentWindow url partition windowPreferences
        webPreferences).superStartCalls =
      self.superStartCalls ++
        [(generateWindowUrl contentPage url partition,
          fullWindowPreferences parentWindow (windowPreferences.getD []))] ∧
    ((parentWindow.isFullScreen = true ∨ parentWindow.isMaximized = true) →
      ∀ k ∈ ["x", "y", "width", "height"],
        k ∉ keys (fullWindowPreferences parentWindow (windowPreferences.getD []))) ∧
    (¬ (parentWindow.isFullScreen = true ∨ parentWindow.isMaximized = true) →
      getProp (fullWindowPreferences parentWindow (windowPreferences.getD [])) "x" =
        JSValue.num (parentWindow.getPosition.1 + 20) ∧
      getProp (fullWindowPreferences parentWindow (windowPreferences.getD [])) "y" =
        JSValue.num (parentWindow.getPosition.2 + 20) ∧
      getProp (fullWindowPreferences parentWindow (windowPreferences.getD [])) "width" =
        JSValue.num parentWindow.getSize.1 ∧
      getProp (fullWindowPreferences parentWindow (windowPreferences.getD [])) "height" =
        JSValue.num parentWindow.getSize.2) := by
  refine ⟨rfl, ?_, ?_⟩
  · intro hp k hk hmem
    have hcopy : (!parentWindow.isFullScreen && !parentWindow.isMaximized) = false := by
      rcases hp with hp | hp <;> simp [hp]
    rw [mem_keys_full] at hmem
    rcases hmem with ⟨_, hne⟩ | ⟨hc, _⟩ | hd
    · exact hne (h k hk)
    · rw [hcopy] at hc
      exact Bool.noConfusion hc
    · simp only [List.mem_cons, List.mem_singleton, List.not_mem_nil, or_false] at hk
      rcases hk with rfl | rfl | rfl | rfl <;> exact absurd hd (by decide)
  · intro hp
    have hcopy : (!parentWindow.isFullScreen && !parentWindow.isMaximized) = true := by
      cases h1 : parentWindow.isFullScreen <;> cases h2 : parentWindow.isMaximized <;>
        simp [h1, h2] at hp ⊢
    have hx := h "x" (by decide)
    have hy := h "y" (by decide)
    have hw := h "width" (by decide)
    have hh := h "height" (by decide)
    refine ⟨?_, ?_, ?_, ?_⟩
    · rw [getProp_full, if_neg (fun hc => hc.2 hx), if_pos ⟨hcopy, by decide⟩]
      simp [getProp]
    · rw [getProp_full, if_neg (fun hc => hc.2 hy), if_pos ⟨hcopy, by decide⟩]
      simp [getProp]
    · rw [getProp_full, if_neg (fun hc => hc.2 hw), if_pos ⟨hcopy, by decide⟩]
      simp [getProp]
    · rw [getProp_full, if_neg (fun hc => hc.2 hh), if_pos ⟨hcopy, by decide⟩]
      simp [getProp]

/-- C5, an instance: a parent at (10, 20) of size 800 by 600, neither full-screen
nor maximized, and a caller that supplies only `title`. -/
theorem C5_parent_sizing_witness :
    (∀ k ∈ ["x", "y", "width", "height"],
      getProp ((some [("title", JSValue.str "Mail")] : Option JSObject).getD []) k =
        JSValue.undefined) ∧
    getProp (fullWindowPreferences ⟨false, false, (10, 20), (800, 600)⟩
      ((some [("title", JSValue.str "Mail")] : Option JSObject).getD [])) "x" =
        JSValue.num ((10 : Int) + 20) :=
  ⟨by decide,
   ((C5_parent_sizing ContentWindow.fresh "/app/scenes/content/content.html"
      ⟨false, false, (10, 20), (800, 600)⟩ (JSValue.str "https://example.com")
      (JSValue.str "partA") (some [("title", JSValue.str "Mail")]) none (by decide)).2.2
      (by decide)).1⟩

/-- C6: the configuration that `start` builds follows the precedence defaults, then
parent sizing, then caller overrides.  For an allow-listed key `k`: a value of
`windowPreferences` at `k` other than `undefined` is the configuration's value at `k`;
otherwise, with a parent neither full-screen nor maximized, `x`, `y`, `width`,
`height` take the parent-derived value; otherwise `minWidth` and `minHeight` are 300,
`title` is `Wavebox` and any other key is absent. -/
theorem C6_precedence (self : ContentWindow) (contentPage : String)
    (parentWindow : ParentWindow) (url partition : JSValue)
    (windowPreferences webPreferences : Option JSObject)
    (k : String) (hk : k ∈ SAFE_CONFIG_KEYS) :
    (self.start contentPage parentWindow url partition windowPreferences
        webPreferences).superStartCalls =
      self.superStartCalls ++
        [(generateWindowUrl contentPage url partition,
          fullWindowPreferences parentWindow (windowPreferences.getD []))] ∧
    (getProp (windowPreferences.getD []) k ≠ JSValue.undefined →
      getProp (fullWindowPreferences parentWindow (windowPreferences.getD [])) k =
        getProp (windowPreferences.getD []) k) ∧
    (getProp (windowPreferences.getD []) k = JSValue.undefined →
      ((parentWindow.isFullScreen = false ∧ parentWindow.isMaximized = false) ∧
          k ∈ ["x", "y", "width", "height"] →
        (k = "x" →
          getProp (fullWindowPreferences parentWindow (windowPreferences.getD [])) k =
            JSValue.num (parentWindow.getPosition.1 + 20)) ∧
        (k = "y" →
          getProp (fullWindowPreferences parentWindow (windowPreferences.getD [])) k =
            JSValue.num (parentWindow.getPosition.2 + 20)) ∧
        (k = "width" →
          getProp (fullWindowPreferences parentWindow (windowPreferences.getD [])) k =
            JSValue.num parentWindow.getSize.1) ∧
        (k = "height" →
          getProp (fullWindowPreferences parentWindow (windowPreferences.getD [])) k =
            JSValue.num parentWindow.getSize.2)) ∧
      (¬ ((parentWindow.isFullScreen = false ∧ parentWindow.isMaximized = false) ∧
          k ∈ ["x", "y", "width", "height"]) →
        (k = "minWidth" →
          getProp (fullWindowPreferences parentWindow (windowPreferences.getD [])) k =
            JSValue.num 300) ∧
        (k = "minHeight" →
          getProp (fullWindowPreferences parentWindow (windowPreferences.getD [])) k =
            JSValue.num 300) ∧
        (k = "title" →
          getProp (fullWindowPreferences parentWindow (windowPreferences.getD [])) k =
            JSValue.str "Wavebox") ∧
        (k ∉ ["minWidth", "minHeight", "title"] →
          k ∉ keys (fullWindowPreferences parentWindow (windowPreferences.getD []))))) := by
  have hcopy_iff : ((!parentWindow.isFullScreen && !parentWindow.isMaximized) = true) ↔
      (parentWindow.isFullScreen = false ∧ parentWindow.isMaximized = false) := by
    cases parentWindow.isFullScreen <;> cases parentWindow.isMaximized <;> simp
  refine ⟨rfl, ?_, ?_⟩
  · intro hne
    rw [getProp_full, if_pos ⟨hk, hne⟩]
  · intro hun
    refine ⟨?_, ?_⟩
    · rintro ⟨hp, hmem⟩
      have hcopy := hcopy_iff.mpr hp
      refine ⟨?_, ?_, ?_, ?_⟩ <;> intro hkeq <;> subst hkeq <;>
        rw [getProp_full, if_neg (fun hc => hc.2 hun), if_pos ⟨hcopy, hmem⟩] <;>
        simp [getProp]
    · intro hnot
      have hnot2 : ¬ ((!parentWindow.isFullScreen && !parentWindow.isMaximized) = true ∧
          k ∈ ["x", "y", "width", "height"]) := fun hc => hnot ⟨hcopy_iff.mp hc.1, hc.2⟩
      refine ⟨?_, ?_, ?_, ?_⟩
      · intro hkeq
        rw [getProp_full, if_neg (fun hc => hc.2 hun), if_neg hnot2, hkeq]
        decide
      · intro hkeq
        rw [getProp_full, if_neg (fun hc => hc.2 hun), if_neg hnot2, hkeq]
        decide
      · intro hkeq
        rw [getProp_full, if_neg (fun hc => hc.2 hun), if_neg hnot2, hkeq]
        decide
      · intro hnd hmem
        rw [mem_keys_full] at hmem
        rcases hmem with ⟨_, hne⟩ | hc | hd
        · exact hne hun
        · exact hnot2 hc
        · simp only [SAFE_CONFIG_KEYS, List.mem_cons, List.mem_singleton, List.not_mem_nil,
            or_false] at hk
          rcases hk with rfl | rfl | rfl | rfl | rfl | rfl | rfl | rfl | rfl | rfl <;>
            first
              | exact absurd hd (by decide)
              | exact absurd (by decide) hnd

/-- C6, an instance: the caller's `width` overrides the parent's and the default
`title`, which the caller does not supply, stays `Wavebox`. -/
theorem C6_precedence_witness :
    "width" ∈ SAFE_CONFIG_KEYS ∧
    getProp (fullWindowPreferences ⟨false, false, (10, 20), (800, 600)⟩
      ((some [("width", JSValue.num 500)] : Option JSObject).getD [])) "width" =
      getProp ((some [("width", JSValue.num 500)] : Option JSObject).getD []) "width" :=
  ⟨by decide,
   (C6_precedence ContentWindow.fresh "/app/scenes/content/content.html"
      ⟨false, false, (10, 20), (800, 600)⟩ (JSValue.str "https://example.com")
      (JSValue.str "partA") (some [("width", JSValue.num 500)]) none
      "width" (by decide)).2.1 (by decide)⟩

/-! ## Claims on the will-attach-webview listener -/

/-- C3 (as amended): the will-attach-webview listener copies the three keys
`guestInstanceId`, `openerId`, `partition` of the stored guest preferences onto the
webview's `webPreferences` and the key `partition` onto its properties.  Every other
key of both targets keeps its value and its presence; a listed key that is
`undefined` in the guest preferences is neither added nor changed; a listed key that
is not `undefined` there takes the guest value. -/
theorem C3_attach_copies_listed_keys (self : ContentWindow)
    (guest : ProtoObject) (webPreferences properties : JSObject)
    (h : self.guestWebPreferences = some guest) :
    self.onWillAttachWebview webPreferences properties =
      some (copyKeys COPY_WEBVIEW_WEB_PREFERENCES_KEYS guest webPreferences,
            copyKeys COPY_WEBVIEW_PROP_KEYS guest properties) ∧
    (∀ k, k ∉ ["guestInstanceId", "openerId", "partition"] ∨
          protoGet guest k = JSValue.undefined →
      getProp (copyKeys COPY_WEBVIEW_WEB_PREFERENCES_KEYS guest webPreferences) k =
        getProp webPreferences k ∧
      (k ∈ keys (copyKeys COPY_WEBVIEW_WEB_PREFERENCES_KEYS guest webPreferences) ↔
        k ∈ keys webPreferences)) ∧
    (∀ k, k ∈ ["guestInstanceId", "openerId", "partition"] →
        protoGet guest k ≠ JSValue.undefined →
      getProp (copyKeys COPY_WEBVIEW_WEB_PREFERENCES_KEYS guest webPreferences) k =
        protoGet guest k) ∧
    (∀ k, k ≠ "partition" ∨ protoGet guest k = JSValue.undefined →
      getProp (copyKeys COPY_WEBVIEW_PROP_KEYS guest properties) k = getProp properties k ∧
      (k ∈ keys (copyKeys COPY_WEBVIEW_PROP_KEYS guest properties) ↔ k ∈ keys properties)) ∧
    (protoGet guest "partition" ≠ JSValue.undefined →
      getProp (copyKeys COPY_WEBVIEW_PROP_KEYS guest properties) "partition" =
        protoGet guest "partition") := by
  refine ⟨?_, ?_, ?_, ?_, ?_⟩
  · simp [ContentWindow.onWillAttachWebview, h]
  · intro k hk
    have hn : ¬ (k ∈ COPY_WEBVIEW_WEB_PREFERENCES_KEYS ∧ protoGet guest k ≠ JSValue.undefined) := by
      rintro ⟨hm, hg⟩
      rcases hk with hk | hk
      · exact hk hm
      · exact hg hk
    refine ⟨?_, ?_⟩
    · rw [getProp_copyKeys, if_neg hn]
    · rw [mem_keys_copyKeys]
      exact ⟨fun hor => hor.resolve_left hn, Or.inr⟩
  · intro k hk hg
    rw [getProp_copyKeys, if_pos ⟨hk, hg⟩]
  · intro k hk
    have hn : ¬ (k ∈ COPY_WEBVIEW_PROP_KEYS ∧ protoGet guest k ≠ JSValue.undefined) := by
      rintro ⟨hm, hg⟩
      rcases hk with hk | hk
      · exact hk (by simpa [COPY_WEBVIEW_PROP_KEYS] using hm)
      · exact hg hk
    refine ⟨?_, ?_⟩
    · rw [getProp_copyKeys, if_neg hn]
    · rw [mem_keys_copyKeys]
      exact ⟨fun hor => hor.resolve_left hn, Or.inr⟩
  · intro hg
    rw [getProp_copyKeys, if_pos ⟨by decide, hg⟩]

/-- C3, an instance of the amended statement: guest preferences with a partition and
no `openerId`; the webview's own `openerId` and `nodeIntegration` are kept. -/
theorem C3_attach_copies_listed_keys_witness :
    ({ ContentWindow.fresh with
        guestWebPreferences := some (plainObject [("partition", JSValue.str "persist:a")]) } :
      ContentWindow).guestWebPreferences =
      some (plainObject [("partition", JSValue.str "persist:a")]) ∧
    ({ ContentWindow.fresh with
        guestWebPreferences := some (plainObject [("partition", JSValue.str "persist:a")]) } :
      ContentWindow).onWillAttachWebview
        [("nodeIntegration", JSValue.bool false), ("openerId", JSValue.num 4)]
        [("src", JSValue.str "https://example.com")] =
      some (copyKeys COPY_WEBVIEW_WEB_PREFERENCES_KEYS
              (plainObject [("partition", JSValue.str "persist:a")])
              [("nodeIntegration", JSValue.bool false), ("openerId", JSValue.num 4)],
            copyKeys COPY_WEBVIEW_PROP_KEYS
              (plainObject [("partition", JSValue.str "persist:a")])
              [("src", JSValue.str "https://example.com")]) :=
  ⟨rfl,
   (C3_attach_copies_listed_keys
      { ContentWindow.fresh with
        guestWebPreferences := some (plainObject [("partition", JSValue.str "persist:a")]) }
      (plainObject [("partition", JSValue.str "persist:a")])
      [("nodeIntegration", JSValue.bool false), ("openerId", JSValue.num 4)]
      [("src", JSValue.str "https://example.com")] rfl).1⟩

/-- C3 as stated fails: with guest preferences that hold `guestInstanceId`,
`openerId` and `partition`, the listener changes three keys of an empty
`webPreferences`, so no choice of two designated keys leaves every other key with
the value it had. -/
theorem C3_counterexample :
    ({ ContentWindow.fresh with
        guestWebPreferences :=
          some (plainObject [("guestInstanceId", JSValue.num 7), ("openerId", JSValue.num 3),
                ("partition", JSValue.str "persist:a")]) } :
      ContentWindow).onWillAttachWebview [] [] =
      some ([("guestInstanceId", JSValue.num 7), ("openerId", JSValue.num 3),
             ("partition", JSValue.str "persist:a")],
            [("partition", JSValue.str "persist:a")]) ∧
    ¬ ∃ k1 k2 : String, ∀ k : String, k ≠ k1 → k ≠ k2 →
      getProp
        (copyKeys COPY_WEBVIEW_WEB_PREFERENCES_KEYS
          (plainObject [("guestInstanceId", JSValue.num 7), ("openerId", JSValue.num 3),
           ("partition", JSValue.str "persist:a")]) []) k =
      getProp [] k := by
  refine ⟨by decide, ?_⟩
  rintro ⟨k1, k2, h⟩
  have h1 := h "guestInstanceId"
  have h2 := h "openerId"
  have h3 := h "partition"
  have e1 : "guestInstanceId" = k1 ∨ "guestInstanceId" = k2 := by
    by_contra hc
    rw [not_or] at hc
    exact absurd (h1 hc.1 hc.2) (by decide)
  have e2 : "openerId" = k1 ∨ "openerId" = k2 := by
    by_contra hc
    rw [not_or] at hc
    exact absurd (h2 hc.1 hc.2) (by decide)
  have e3 : "partition" = k1 ∨ "partition" = k2 := by
    by_contra hc
    rw [not_or] at hc
    exact absurd (h3 hc.1 hc.2) (by decide)
  rcases e1 with e1 | e1 <;> rcases e2 with e2 | e2 <;> rcases e3 with e3 | e3 <;>
    first
      | exact absurd (e1.trans e2.symm) (by decide)
      | exact absurd (e1.trans e3.symm) (by decide)
      | exact absurd (e2.trans e3.symm) (by decide)

/-! ## Claims on the stored guest preferences -/

theorem protoGet_plainObject (o : JSObject) (k : String) :
    protoGet (plainObject o) k = getProp o k := by
  by_cases hk : k ∈ keys o
  · simp [protoGet, plainObject, hk]
  · simp [protoGet, plainObject, hk, getProp_eq_undefined_of_not_mem o k hk]

theorem protoSet_own (o : ProtoObject) (k : String) (v : JSValue) (hk : k ≠ "__proto__") :
    protoSet o k v = { o with own := setProp o.own k v } := by
  simp [protoSet, hk]

theorem protoGet_protoSet_self (o : ProtoObject) (k : String) (v : JSValue)
    (hk : k ≠ "__proto__") : protoGet (protoSet o k v) k = v := by
  have hm : k ∈ keys (setProp o.own k v) := (mem_keys_setProp o.own k v k).mpr (Or.inl rfl)
  rw [protoSet_own o k v hk]
  simp only [protoGet, hm, if_true, getProp_setProp]

theorem foldl_protoSet_own (s : JSObject) (l : List String) (t : JSObject) (pr : Proto)
    (hl : "__proto__" ∉ l) :
    l.foldl (fun acc k => protoSet acc k (getProp s k)) { own := t, proto := pr } =
      { own := l.foldl (fun acc k => setProp acc k (getProp s k)) t, proto := pr } := by
  induction l generalizing t with
  | nil => rfl
  | cons k0 l ih =>
    simp only [List.mem_cons, not_or] at hl
    have hk0 : k0 ≠ "__proto__" := fun e => hl.1 e.symm
    rw [List.foldl_cons, List.foldl_cons, protoSet_own _ _ _ hk0]
    exact ih _ hl.2

theorem protoAssignFrom_own (t : JSObject) (pr : Proto) (s : JSObject)
    (hs : "__proto__" ∉ keys s) :
    protoAssignFrom { own := t, proto := pr } s = { own := assignFrom t s, proto := pr } :=
  foldl_protoSet_own s (keys s) t pr hs

theorem guestWebPreferencesOf_eq (webPreferences : JSObject) (partition : JSValue) :
    guestWebPreferencesOf webPreferences partition =
      protoSet (protoAssignFrom (plainObject []) webPreferences) "partition" partition := by
  simp [guestWebPreferencesOf, protoAssign, protoAssignFrom, keys, getProp]

theorem guestWebPreferencesOf_plain (webPreferences : JSObject) (partition : JSValue)
    (hp : "__proto__" ∉ keys webPreferences) :
    guestWebPreferencesOf webPreferences partition =
      plainObject (objectAssign [] [some webPreferences, some [("partition", partition)]]) := by
  have h2 : "__proto__" ∉ keys [("partition", partition)] := by
    simp only [keys, List.map_cons, List.map_nil, List.mem_singleton]
    decide
  simp only [guestWebPreferencesOf, protoAssign, List.foldl_cons, List.foldl_nil, plainObject,
    objectAssign]
  rw [protoAssignFrom_own _ _ _ hp, protoAssignFrom_own _ _ _ h2]

theorem getProp_assignGuest (webPreferences : JSObject) (partition : JSValue) (k : String) :
    getProp (objectAssign [] [some webPreferences, some [("partition", partition)]]) k =
      if k = "partition" then partition else getProp webPreferences k := by
  simp only [objectAssign, List.foldl_cons, List.foldl_nil, getProp_assignFrom]
  by_cases hk : k = "partition"
  · subst hk; simp [keys, getProp]
  · have hk2 : ¬ "partition" = k := fun e => hk e.symm
    simp only [keys, List.map_cons, List.map_nil, List.mem_singleton, hk, if_false]
    by_cases hm : k ∈ List.map Prod.fst webPreferences
    · simp [hm]
    · simp only [hm, if_false]
      rw [getProp_eq_undefined_of_not_mem _ _ hm]
      rfl

theorem mem_keys_assignGuest (webPreferences : JSObject) (partition : JSValue) (k : String) :
    k ∈ keys (objectAssign [] [some webPreferences, some [("partition", partition)]]) ↔
      k = "partition" ∨ k ∈ keys webPreferences := by
  simp only [objectAssign, List.foldl_cons, List.foldl_nil, mem_keys_assignFrom]
  simp [keys]

theorem storeRead_set (st : Store) (i : Nat) (v : ProtoObject) (j : Nat) :
    storeRead (st.set i v) j = if i = j ∧ i < st.length then v else storeRead st j := by
  unfold storeRead
  rw [List.getD_eq_getElem?_getD, List.getD_eq_getElem?_getD, List.getElem?_set]
  by_cases hij : i = j
  · subst hij
    by_cases hl : i < st.length
    · simp [hl]
    · simp [hl, List.getElem?_eq_none (Nat.le_of_not_lt hl)]
  · simp [hij]

theorem storeRead_append_left (st more : Store) (j : Nat) (hj : j < st.length) :
    storeRead (st ++ more) j = storeRead st j := by
  unfold storeRead
  rw [List.getD_eq_getElem?_getD, List.getD_eq_getElem?_getD, List.getElem?_append_left hj]

theorem storeRead_append_length (st : Store) (o : ProtoObject) (more : Store) :
    storeRead (st ++ o :: more) st.length = o := by
  unfold storeRead
  rw [List.getD_eq_getElem?_getD, List.getElem?_append_right (Nat.le_refl _)]
  simp

theorem storeGuestWebPreferences_spec (st : Store) (r : Nat) (partition : JSValue)
    (hr : r < st.length) :
    (∀ r2, r2 < st.length →
      storeRead (storeGuestWebPreferences st r partition).1 r2 = storeRead st r2) ∧
    storeRead (storeGuestWebPreferences st r partition).1
        (storeGuestWebPreferences st r partition).2 =
      guestWebPreferencesOf (storeRead st r).own partition := by
  have hlen : st.length <
      (st ++ [plainObject []] ++ [plainObject [("partition", partition)]]).length := by simp
  have hne : st.length ≠ r := fun e => by omega
  have e0 : storeRead (st ++ [plainObject []] ++ [plainObject [("partition", partition)]])
      st.length = plainObject [] := by
    rw [List.append_assoc]
    exact storeRead_append_length st (plainObject []) _
  have e1 : storeRead (st ++ [plainObject []] ++ [plainObject [("partition", partition)]]) r =
      storeRead st r := by
    rw [List.append_assoc]
    exact storeRead_append_left st _ r hr
  have e2 : storeRead (st ++ [plainObject []] ++ [plainObject [("partition", partition)]])
      (st.length + 1) = plainObject [("partition", partition)] := by
    have := storeRead_append_length (st ++ [plainObject []])
      (plainObject [("partition", partition)]) []
    simpa using this
  simp only [storeGuestWebPreferences, storeAlloc, storeAssign, List.foldl_cons, List.foldl_nil,
    List.length_append, List.length_singleton]
  refine ⟨?_, ?_⟩
  · intro r2 hr2
    have hne2 : st.length ≠ r2 := fun e => by omega
    rw [storeRead_set, if_neg (fun hc => hne2 hc.1), storeRead_set,
      if_neg (fun hc => hne2 hc.1), List.append_assoc]
    exact storeRead_append_left st _ r2 hr2
  · rw [storeRead_set, if_pos ⟨rfl, by simp⟩, storeRead_set, if_pos ⟨rfl, hlen⟩,
      storeRead_set, if_neg (fun hc => by omega), e0, e1, e2]
    rfl

/-- C7 (as amended): `start` stores guest preferences that have `partition` forced
to the partition argument and, for a `webPreferences` without an own `__proto__` key,
equal `webPreferences` on every key other than `partition`; the store of objects the
caller can reach, its `webPreferences` object included, is unchanged.  A later
will-attach-webview event sets `partition` on the webview's `webPreferences` and on
its properties to the partition argument when that argument is not `undefined`, and
leaves the `partition` of both as it was when the argument is `undefined`. -/
theorem C7_guest_preferences (self : ContentWindow) (contentPage : String)
    (parentWindow : ParentWindow) (url partition : JSValue)
    (windowPreferences webPreferences : Option JSObject)
    (attachPreferences attachProperties : JSObject)
    (st : Store) (r : Nat) (hr : r < st.length)
    (hst : storeRead st r = plainObject (webPreferences.getD [])) :
    (self.start contentPage parentWindow url partition windowPreferences
        webPreferences).guestWebPreferences =
      some (guestWebPreferencesOf (webPreferences.getD []) partition) ∧
    ("__proto__" ∉ keys (webPreferences.getD []) →
      (guestWebPreferencesOf (webPreferences.getD []) partition).proto =
        Proto.objectPrototype ∧
      ∀ k, k ≠ "partition" →
        protoGet (guestWebPreferencesOf (webPreferences.getD []) partition) k =
          getProp (webPreferences.getD []) k ∧
        (k ∈ keys (guestWebPreferencesOf (webPreferences.getD []) partition).own ↔
          k ∈ keys (webPreferences.getD []))) ∧
    protoGet (guestWebPreferencesOf (webPreferences.getD []) partition) "partition" =
      partition ∧
    (∀ r2, r2 < st.length →
      storeRead (storeGuestWebPreferences st r partition).1 r2 = storeRead st r2) ∧
    storeRead (storeGuestWebPreferences st r partition).1
        (storeGuestWebPreferences st r partition).2 =
      guestWebPreferencesOf (webPreferences.getD []) partition ∧
    (self.start contentPage parentWindow url partition windowPreferences
        webPreferences).onWillAttachWebview attachPreferences attachProperties =
      some (copyKeys COPY_WEBVIEW_WEB_PREFERENCES_KEYS
              (guestWebPreferencesOf (webPreferences.getD []) partition) attachPreferences,
            copyKeys COPY_WEBVIEW_PROP_KEYS
              (guestWebPreferencesOf (webPreferences.getD []) partition) attachProperties) ∧
    (partition ≠ JSValue.undefined →
      getProp (copyKeys COPY_WEBVIEW_WEB_PREFERENCES_KEYS
          (guestWebPreferencesOf (webPreferences.getD []) partition) attachPreferences)
        "partition" = partition ∧
      getProp (copyKeys COPY_WEBVIEW_PROP_KEYS
          (guestWebPreferencesOf (webPreferences.getD []) partition) attachProperties)
        "partition" = partition) ∧
    (partition = JSValue.undefined →
      getProp (copyKeys COPY_WEBVIEW_WEB_PREFERENCES_KEYS
          (guestWebPreferencesOf (webPreferences.getD []) partition) attachPreferences)
        "partition" = getProp attachPreferences "partition" ∧
      getProp (copyKeys COPY_WEBVIEW_PROP_KEYS
          (guestWebPreferencesOf (webPreferences.getD []) partition) attachProperties)
        "partition" = getProp attachProperties "partition") := by
  have hpart : protoGet (guestWebPreferencesOf (webPreferences.getD []) partition)
      "partition" = partition := by
    rw [guestWebPreferencesOf_eq]
    exact protoGet_protoSet_self _ _ _ (by decide)
  have hstore := storeGuestWebPreferences_spec st r partition hr
  refine ⟨rfl, ?_, hpart, hstore.1, ?_, rfl, ?_, ?_⟩
  · intro hp
    rw [guestWebPreferencesOf_plain _ _ hp]
    refine ⟨rfl, ?_⟩
    intro k hk
    refine ⟨?_, ?_⟩
    · rw [protoGet_plainObject, getProp_assignGuest, if_neg hk]
    · show k ∈ keys (objectAssign [] [some (webPreferences.getD []),
          some [("partition", partition)]]) ↔ _
      rw [mem_keys_assignGuest]
      exact ⟨fun hor => hor.resolve_left hk, Or.inr⟩
  · rw [hstore.2, hst]
    rfl
  · intro hne
    have hne2 : protoGet (guestWebPreferencesOf (webPreferences.getD []) partition)
        "partition" ≠ JSValue.undefined := by rw [hpart]; exact hne
    refine ⟨?_, ?_⟩
    · rw [getProp_copyKeys, if_pos ⟨by decide, hne2⟩, hpart]
    · rw [getProp_copyKeys, if_pos ⟨by decide, hne2⟩, hpart]
  · intro heq
    have hn : ∀ ks : List String, ¬ ("partition" ∈ ks ∧
        protoGet (guestWebPreferencesOf (webPreferences.getD []) partition) "partition" ≠
          JSValue.undefined) := by
      rintro ks ⟨_, hg⟩
      rw [hpart] at hg
      exact hg heq
    refine ⟨?_, ?_⟩
    · rw [getProp_copyKeys, if_neg (hn _)]
    · rw [getProp_copyKeys, if_neg (hn _)]

/-- C7, an instance of the amended statement: `webPreferences` with its own
partition and no `__proto__` key, started with partition `persist:a`; the stored
preferences keep `zoomFactor`, and the webview that attaches asked for another
partition and gets `persist:a`. -/
theorem C7_guest_preferences_witness :
    (0 < ([plainObject [("partition", JSValue.str "persist:mine"),
        ("zoomFactor", JSValue.num 2)]] : Store).length) ∧
    "__proto__" ∉ keys ((some [("partition", JSValue.str "persist:mine"),
        ("zoomFactor", JSValue.num 2)] : Option JSObject).getD []) ∧
    protoGet
        (guestWebPreferencesOf
          ((some [("partition", JSValue.str "persist:mine"), ("zoomFactor", JSValue.num 2)] :
            Option JSObject).getD [])
          (JSValue.str "persist:a"))
        "zoomFactor" =
      getProp ((some [("partition", JSValue.str "persist:mine"),
        ("zoomFactor", JSValue.num 2)] : Option JSObject).getD []) "zoomFactor" ∧
    getProp (copyKeys COPY_WEBVIEW_WEB_PREFERENCES_KEYS
        (guestWebPreferencesOf
          ((some [("partition", JSValue.str "persist:mine"), ("zoomFactor", JSValue.num 2)] :
            Option JSObject).getD [])
          (JSValue.str "persist:a"))
        [("partition", JSValue.str "persist:page")])
      "partition" = JSValue.str "persist:a" :=
  ⟨by decide, by decide,
   (((C7_guest_preferences ContentWindow.fresh "/app/scenes/content/content.html"
      ⟨false, false, (10, 20), (800, 600)⟩ (JSValue.str "https://example.com")
      (JSValue.str "persist:a") none
      (some [("partition", JSValue.str "persist:mine"), ("zoomFactor", JSValue.num 2)])
      [("partition", JSValue.str "persist:page")] [("partition", JSValue.str "persist:page")]
      [plainObject [("partition", JSValue.str "persist:mine"), ("zoomFactor", JSValue.num 2)]] 0
      (by decide) rfl).2.1 (by decide)).2 "zoomFactor" (by decide)).1,
   ((C7_guest_preferences ContentWindow.fresh "/app/scenes/content/content.html"
      ⟨false, false, (10, 20), (800, 600)⟩ (JSValue.str "https://example.com")
      (JSValue.str "persist:a") none
      (some [("partition", JSValue.str "persist:mine"), ("zoomFactor", JSValue.num 2)])
      [("partition", JSValue.str "persist:page")] [("partition", JSValue.str "persist:page")]
      [plainObject [("partition", JSValue.str "persist:mine"), ("zoomFactor", JSValue.num 2)]] 0
      (by decide) rfl).2.2.2.2.2.2.1 (by decide)).1⟩

/-- C7 as stated fails at two inputs.  With the partition value `undefined`, after
`start(parent, url, undefined)` the listener does not set `partition`: a webview that
attaches with partition `persist:page` keeps it on its `webPreferences` and on its
properties.  With a `webPreferences` that has an own `__proto__` key holding
`openerId`, the stored preferences get that object as their prototype and read
`openerId` as 5, where `webPreferences` reads it as `undefined`. -/
theorem C7_counterexample :
    (protoGet (guestWebPreferencesOf [] JSValue.undefined) "partition" = JSValue.undefined ∧
      (ContentWindow.fresh.start "/app/scenes/content/content.html"
          ⟨false, false, (10, 20), (800, 600)⟩ (JSValue.str "https://example.com")
          JSValue.undefined none (some [])).onWillAttachWebview
          [("partition", JSValue.str "persist:page")]
          [("partition", JSValue.str "persist:page")] =
        some ([("partition", JSValue.str "persist:page")],
              [("partition", JSValue.str "persist:page")]) ∧
      JSValue.str "persist:page" ≠ JSValue.undefined) ∧
    ((ContentWindow.fresh.start "/app/scenes/content/content.html"
          ⟨false, false, (10, 20), (800, 600)⟩ (JSValue.str "https://example.com")
          (JSValue.str "persist:a") none
          (some [("__proto__", JSValue.obj [("openerId", JSValue.num 5)]),
                 ("zoomFactor", JSValue.num 2)])).guestWebPreferences =
        some { own := [("zoomFactor", JSValue.num 2), ("partition", JSValue.str "persist:a")],
               proto := Proto.object [("openerId", JSValue.num 5)] } ∧
      protoGet
          (guestWebPreferencesOf
            [("__proto__", JSValue.obj [("openerId", JSValue.num 5)]),
             ("zoomFactor", JSValue.num 2)]
            (JSValue.str "persist:a"))
          "openerId" = JSValue.num 5 ∧
      getProp
          [("__proto__", JSValue.obj [("openerId", JSValue.num 5)]),
           ("zoomFactor", JSValue.num 2)]
          "openerId" = JSValue.undefined) := by
  decide

/-! ## Claims on the actions and on mouse navigation -/

/-- C8: each of `reload()`, `navigateBack()` and `navigateForward()` returns
the instance it was called on, has sent exactly one more message to the hosted
content, named `reload-webview`, `navigate-webview-back` and
`navigate-webview-forward` respectively, with an empty payload, and has changed
nothing else of the instance; the calls chain. -/
theorem C8_actions (self : ContentWindow) :
    (self.reload.sent = self.sent ++ [("reload-webview", JSValue.obj [])] ∧
      self.reload.sameExceptSent self) ∧
    (self.navigateBack.sent = self.sent ++ [("navigate-webview-back", JSValue.obj [])] ∧
      self.navigateBack.sameExceptSent self) ∧
    (self.navigateForward.sent =
        self.sent ++ [("navigate-webview-forward", JSValue.obj [])] ∧
      self.navigateForward.sameExceptSent self) ∧
    self.reload.navigateBack.navigateForward.sent =
      self.sent ++ [("reload-webview", JSValue.obj []), ("navigate-webview-back", JSValue.obj []),
        ("navigate-webview-forward", JSValue.obj [])] := by
  refine ⟨⟨rfl, rfl, rfl, rfl, rfl, rfl, rfl, rfl⟩, ⟨rfl, rfl, rfl, rfl, rfl, rfl, rfl, rfl⟩,
    ⟨rfl, rfl, rfl, rfl, rfl, rfl, rfl, rfl⟩, ?_⟩
  simp [ContentWindow.reload, ContentWindow.navigateBack, ContentWindow.navigateForward]

/-- C9: `createWindow` registers the app-command listener on win32, the mouse-button
callback and a focus listener on linux, and no navigation listener on any other
platform.  Delivered to the app-command listener, `browser-backward` sends exactly
one `navigate-webview-back` message, `browser-forward` exactly one
`navigate-webview-forward` message and any other value leaves the instance as it
was; the same holds for `back` and `forward` delivered to the mouse-button
callback. -/
theorem C9_navigation (self : ContentWindow) (platform : String) (arguments : List JSValue)
    (s : ContentWindow) (cmd : JSValue) :
    (platform = "win32" →
      (self.createWindow platform arguments).windowListeners =
        self.windowListeners ++ [("app-command", Listener.appCommand)] ∧
      (self.createWindow platform arguments).mouseListeners = self.mouseListeners) ∧
    (platform = "linux" →
      (self.createWindow platform arguments).windowListeners =
        self.windowListeners ++ [("focus", Listener.focus)] ∧
      (self.createWindow platform arguments).mouseListeners =
        self.mouseListeners ++ [Listener.mouseButton]) ∧
    (platform ≠ "win32" → platform ≠ "linux" →
      (self.createWindow platform arguments).windowListeners = self.windowListeners ∧
      (self.createWindow platform arguments).mouseListeners = self.mouseListeners) ∧
    (self.createWindow platform arguments).sent = self.sent ∧
    (cmd = JSValue.str "browser-backward" →
      (Listener.appCommand.fire s cmd).sent =
        s.sent ++ [("navigate-webview-back", JSValue.obj [])] ∧
      (Listener.appCommand.fire s cmd).sameExceptSent s) ∧
    (cmd = JSValue.str "browser-forward" →
      (Listener.appCommand.fire s cmd).sent =
        s.sent ++ [("navigate-webview-forward", JSValue.obj [])] ∧
      (Listener.appCommand.fire s cmd).sameExceptSent s) ∧
    (cmd ≠ JSValue.str "browser-backward" → cmd ≠ JSValue.str "browser-forward" →
      Listener.appCommand.fire s cmd = s) ∧
    (cmd = JSValue.str "back" →
      (Listener.mouseButton.fire s cmd).sent =
        s.sent ++ [("navigate-webview-back", JSValue.obj [])] ∧
      (Listener.mouseButton.fire s cmd).sameExceptSent s) ∧
    (cmd = JSValue.str "forward" →
      (Listener.mouseButton.fire s cmd).sent =
        s.sent ++ [("navigate-webview-forward", JSValue.obj [])] ∧
      (Listener.mouseButton.fire s cmd).sameExceptSent s) ∧
    (cmd ≠ JSValue.str "back" → cmd ≠ JSValue.str "forward" →
      Listener.mouseButton.fire s cmd = s) := by
  refine ⟨?_, ?_, ?_, ?_, ?_, ?_, ?_, ?_, ?_, ?_⟩
  · intro hp
    subst hp
    exact ⟨rfl, rfl⟩
  · intro hp
    subst hp
    exact ⟨rfl, rfl⟩
  · intro h1 h2
    simp [ContentWindow.createWindow, h1, h2]
  · by_cases h1 : platform = "win32"
    · simp [ContentWindow.createWindow, h1]
    · by_cases h2 : platform = "linux"
      · simp [ContentWindow.createWindow, h1, h2, ContentWindow.registerLinuxMouseNavigation]
      · simp [ContentWindow.createWindow, h1, h2]
  · intro hc
    subst hc
    exact ⟨rfl, rfl, rfl, rfl, rfl, rfl, rfl, rfl⟩
  · intro hc
    subst hc
    exact ⟨rfl, rfl, rfl, rfl, rfl, rfl, rfl, rfl⟩
  · intro h1 h2
    simp [Listener.fire, ContentWindow.onAppCommand, h1, h2]
  · intro hc
    subst hc
    exact ⟨rfl, rfl, rfl, rfl, rfl, rfl, rfl, rfl⟩
  · intro hc
    subst hc
    exact ⟨rfl, rfl, rfl, rfl, rfl, rfl, rfl, rfl⟩
  · intro h1 h2
    simp [Listener.fire, ContentWindow.onMouseButton, h1, h2]

/-- C9, an instance: on win32 the command `browser-backward` sends one
`navigate-webview-back` message, and the command `volume-up` sends none. -/
theorem C9_navigation_witness :
    (Listener.appCommand.fire ContentWindow.fresh (JSValue.str "browser-backward")).sent =
      ContentWindow.fresh.sent ++ [("navigate-webview-back", JSValue.obj [])] ∧
    Listener.appCommand.fire ContentWindow.fresh (JSValue.str "volume-up") =
      ContentWindow.fresh :=
  ⟨((C9_navigation ContentWindow.fresh "win32" [] ContentWindow.fresh
      (JSValue.str "browser-backward")).2.2.2.2.1 rfl).1,
   (C9_navigation ContentWindow.fresh "win32" [] ContentWindow.fresh
      (JSValue.str "volume-up")).2.2.2.2.2.2.1 (by decide) (by decide)⟩

/-! ## Claims on `generateWindowUrl` -/

theorem qsEscape_url : qsEscape "url" = "url" := by decide

theorem qsEscape_partition : qsEscape "partition" = "partition" := by decide

theorem qsStringify_url_partition (url partition : String) :
    qsStringify [("url", JSValue.str url), ("partition", JSValue.str partition)] =
      "url=" ++ qsEscape url ++ "&partition=" ++ qsEscape partition := by
  have h1 : getProp [("url", JSValue.str url), ("partition", JSValue.str partition)] "url" =
      JSValue.str url := by simp [getProp]
  have h2 : getProp [("url", JSValue.str url), ("partition", JSValue.str partition)]
      "partition" = JSValue.str partition := by
    have hne : ¬ "url" = "partition" := by decide
    simp [getProp, hne]
  simp only [qsStringify, keys, List.map_cons, List.map_nil, qsStringifyFields, h1, h2,
    stringifyPrimitive, qsEscape_url, qsEscape_partition]
  apply String.ext
  simp [String.data_append]

/-- C10: for strings `url` and `partition`, `generateWindowUrl(url, partition)` is
`file://`, the path of the content page, `?url=`, the percent-encoding of `url`,
`&partition=` and the percent-encoding of `partition`, in this order and with
nothing else. -/
theorem C10_generateWindowUrl_format (contentPage url partition : String) :
    generateWindowUrl contentPage (JSValue.str url) (JSValue.str partition) =
      "file://" ++ contentPage ++ "?url=" ++ qsEscape url ++ "&partition=" ++
        qsEscape partition := by
  rw [generateWindowUrl, qsStringify_url_partition]
  apply String.ext
  simp [String.data_append]

/-! ## Escaping and unescaping -/

theorem char_toNat_valid (c : Char) :
    c.toNat < 0xD800 ∨ (0xDFFF < c.toNat ∧ c.toNat < 0x110000) := c.valid

theorem hexVal_hexDigit : ∀ n, n < 16 → hexVal (hexDigit n) = some n := by decide

theorem hexDigit_ne : ∀ n, n < 16 →
    hexDigit n ≠ '&' ∧ hexDigit n ≠ '=' ∧ hexDigit n ≠ '%' ∧ hexDigit n ≠ '+' := by decide

theorem noEscape_ne (c : Char) (h : noEscape c = true) :
    c ≠ '&' ∧ c ≠ '=' ∧ c ≠ '%' ∧ c ≠ '+' := by
  refine ⟨?_, ?_, ?_, ?_⟩ <;> intro e <;> subst e <;> exact absurd h (by decide)

theorem utf8Bytes_lt (n : Nat) (hn : n < 0x110000) : ∀ b ∈ utf8Bytes n, b < 256 := by
  intro b hb
  unfold utf8Bytes at hb
  split_ifs at hb <;> simp at hb <;> omega

theorem tokens_hexTable (b : Nat) (hb : b < 256) (more : List Char) :
    tokens (hexTable b ++ more) = (tokens more).map (fun ts => Tok.byte b :: ts) := by
  have h1 := hexVal_hexDigit (b / 16) (by omega)
  have h2 := hexVal_hexDigit (b % 16) (by omega)
  have h3 : b / 16 * 16 + b % 16 = b := by omega
  cases ht : tokens more <;> simp [hexTable, tokens, h1, h2, ht, h3]

theorem tokens_hexBytes (bs : List Nat) (hbs : ∀ b ∈ bs, b < 256) (more : List Char) :
    tokens (hexBytes bs ++ more) =
      (tokens more).map (fun ts => bs.map Tok.byte ++ ts) := by
  induction bs with
  | nil => cases ht : tokens more <;> simp [hexBytes, ht]
  | cons b bs ih =>
    rw [hexBytes, List.append_assoc, tokens_hexTable b (hbs b (List.mem_cons_self _ _)),
      ih (fun x hx => hbs x (List.mem_cons_of_mem _ hx))]
    cases ht : tokens more <;> simp [ht]

theorem tokens_lit (c : Char) (hc : c ≠ '%') (more : List Char) :
    tokens (c :: more) = (tokens more).map (fun ts => Tok.lit c :: ts) := by
  rw [tokens.eq_def]
  cases ht : tokens more <;> simp [hc, ht]

theorem decodeToks_lit (c : Char) (hc : c ≠ '+') (ts : List Tok) :
    decodeToks (Tok.lit c :: ts) = (decodeToks ts).map (fun cs => c :: cs) := by
  unfold decodeToks
  rw [decodeFrom.eq_3]
  cases ht : decodeFrom none ts <;> simp [hc]

theorem decodeFrom_last (p : Pending) (b : Nat) (ts : List Tok) (hn : p.need ≤ 1)
    (h1 : 128 ≤ b) (h2 : b < 192) (h3 : p.least ≤ p.acc * 64 + (b - 0x80))
    (h4 : p.acc * 64 + (b - 0x80) < 0x110000)
    (h5 : ¬ (0xD800 ≤ p.acc * 64 + (b - 0x80) ∧ p.acc * 64 + (b - 0x80) < 0xE000)) :
    decodeFrom (some p) (Tok.byte b :: ts) =
      (decodeToks ts).map (fun cs => Char.ofNat (p.acc * 64 + (b - 0x80)) :: cs) := by
  have hc : contByte b = true := by simp [contByte, h1, h2]
  unfold decodeToks
  rw [decodeFrom.eq_6, if_pos hc, if_pos hn, if_pos ⟨h3, h4, h5⟩]
  cases ht : decodeFrom none ts <;> simp

theorem decodeFrom_more (p : Pending) (b : Nat) (ts : List Tok) (hn : ¬ p.need ≤ 1)
    (h1 : 128 ≤ b) (h2 : b < 192) :
    decodeFrom (some p) (Tok.byte b :: ts) =
      decodeFrom (some ⟨p.need - 1, p.acc * 64 + (b - 0x80), p.least⟩) ts := by
  have hc : contByte b = true := by simp [contByte, h1, h2]
  rw [decodeFrom.eq_6, if_pos hc, if_neg hn]

theorem decodeToks_utf8 (c : Char) (ts : List Tok) :
    decodeToks ((utf8Bytes c.toNat).map Tok.byte ++ ts) =
      (decodeToks ts).map (fun cs => c :: cs) := by
  have hv := char_toNat_valid c
  have hof : ∀ m, m = c.toNat → Char.ofNat m = c := fun m hm => by
    rw [hm, Char.ofNat_toNat]
  generalize c.toNat = n at hv hof
  unfold utf8Bytes
  split_ifs with h1 h2 h3
  · -- one byte
    simp only [List.map_cons, List.map_nil, List.cons_append, List.nil_append]
    unfold decodeToks
    rw [decodeFrom.eq_5, if_pos h1, hof n rfl]
    cases ht : decodeFrom none ts <;> simp
  · -- two bytes
    simp only [List.map_cons, List.map_nil, List.cons_append, List.nil_append]
    have e : decodeToks (Tok.byte (0xC0 + n / 64) :: Tok.byte (0x80 + n % 64) :: ts) =
        decodeFrom (some ⟨1, 0xC0 + n / 64 - 0xC0, 0x80⟩) (Tok.byte (0x80 + n % 64) :: ts) := by
      unfold decodeToks
      rw [decodeFrom.eq_5, if_neg (by omega), if_pos (by omega)]
    rw [e, decodeFrom_last _ _ _ (Nat.le_refl 1) (by omega) (by omega)
      (by simp only; omega) (by simp only; omega) (by simp only; omega)]
    have hval : (0xC0 + n / 64 - 0xC0) * 64 + (0x80 + n % 64 - 0x80) = n := by omega
    simp only [hval, hof n rfl]
  · -- three bytes
    simp only [List.map_cons, List.map_nil, List.cons_append, List.nil_append]
    have e : decodeToks (Tok.byte (0xE0 + n / 4096) :: Tok.byte (0x80 + n / 64 % 64) ::
          Tok.byte (0x80 + n % 64) :: ts) =
        decodeFrom (some ⟨2, 0xE0 + n / 4096 - 0xE0, 0x800⟩)
          (Tok.byte (0x80 + n / 64 % 64) :: Tok.byte (0x80 + n % 64) :: ts) := by
      unfold decodeToks
      rw [decodeFrom.eq_5, if_neg (by omega), if_neg (by omega), if_pos (by omega)]
    rw [e, decodeFrom_more _ _ _ (by simp) (by omega) (by omega),
      decodeFrom_last _ _ _ (by simp) (by omega) (by omega)
      (by simp only; omega) (by simp only; omega) (by simp only; omega)]
    have hval : ((0xE0 + n / 4096 - 0xE0) * 64 + (0x80 + n / 64 % 64 - 0x80)) * 64 +
        (0x80 + n % 64 - 0x80) = n := by omega
    simp only [hval, hof n rfl]
  · -- four bytes
    simp only [List.map_cons, List.map_nil, List.cons_append, List.nil_append]
    have e : decodeToks (Tok.byte (0xF0 + n / 262144) :: Tok.byte (0x80 + n / 4096 % 64) ::
          Tok.byte (0x80 + n / 64 % 64) :: Tok.byte (0x80 + n % 64) :: ts) =
        decodeFrom (some ⟨3, 0xF0 + n / 262144 - 0xF0, 0x10000⟩)
          (Tok.byte (0x80 + n / 4096 % 64) :: Tok.byte (0x80 + n / 64 % 64) ::
            Tok.byte (0x80 + n % 64) :: ts) := by
      unfold decodeToks
      rw [decodeFrom.eq_5, if_neg (by omega), if_neg (by omega), if_neg (by omega),
        if_pos (by omega)]
    rw [e, decodeFrom_more _ _ _ (by simp) (by omega) (by omega),
      decodeFrom_more _ _ _ (by simp) (by omega) (by omega),
      decodeFrom_last _ _ _ (by simp) (by omega) (by omega)
      (by simp only; omega) (by simp only; omega) (by simp only; omega)]
    have hval : (((0xF0 + n / 262144 - 0xF0) * 64 + (0x80 + n / 4096 % 64 - 0x80)) * 64 +
        (0x80 + n / 64 % 64 - 0x80)) * 64 + (0x80 + n % 64 - 0x80) = n := by omega
    simp only [hval, hof n rfl]

theorem qsEscapeChars_tokens (cs : List Char) :
    ∃ ts, tokens (qsEscapeChars cs) = some ts ∧ decodeToks ts = some cs := by
  induction cs with
  | nil => exact ⟨[], rfl, rfl⟩
  | cons c cs ih =>
    obtain ⟨ts, h1, h2⟩ := ih
    by_cases hc : noEscape c = true
    · have hne := noEscape_ne c hc
      refine ⟨Tok.lit c :: ts, ?_, ?_⟩
      · simp only [qsEscapeChars, qsEscapeChar, hc, if_true, List.singleton_append]
        rw [tokens_lit c hne.2.2.1, h1]
        rfl
      · rw [decodeToks_lit c hne.2.2.2, h2]
        rfl
    · have hlt : c.toNat < 0x110000 := by
        have := char_toNat_valid c
        omega
      refine ⟨(utf8Bytes c.toNat).map Tok.byte ++ ts, ?_, ?_⟩
      · have hc2 : noEscape c = false := by simpa using hc
        simp only [qsEscapeChars, qsEscapeChar, hc2, Bool.false_eq_true, if_false]
        rw [tokens_hexBytes _ (utf8Bytes_lt _ hlt), h1]
        rfl
      · rw [decodeToks_utf8, h2]
        rfl

theorem qsUnescape_qsEscapeChars (cs : List Char) :
    qsUnescape (qsEscapeChars cs) = some cs := by
  obtain ⟨ts, h1, h2⟩ := qsEscapeChars_tokens cs
  simp only [qsUnescape, h1, h2]

theorem mem_hexBytes (bs : List Nat) (hbs : ∀ b ∈ bs, b < 256) (x : Char)
    (hx : x ∈ hexBytes bs) : x = '%' ∨ ∃ n, n < 16 ∧ x = hexDigit n := by
  induction bs with
  | nil => simp [hexBytes] at hx
  | cons b bs ih =>
    have hb := hbs b (List.mem_cons_self _ _)
    simp only [hexBytes, hexTable, List.cons_append, List.nil_append, List.mem_cons] at hx
    rcases hx with hx | hx | hx | hx
    · exact Or.inl hx
    · exact Or.inr ⟨b / 16, by omega, hx⟩
    · exact Or.inr ⟨b % 16, by omega, hx⟩
    · exact ih (fun y hy => hbs y (List.mem_cons_of_mem _ hy)) hx

theorem mem_qsEscapeChars (cs : List Char) (x : Char) (hx : x ∈ qsEscapeChars cs) :
    x ≠ '&' ∧ x ≠ '=' := by
  induction cs with
  | nil => simp [qsEscapeChars] at hx
  | cons c cs ih =>
    simp only [qsEscapeChars, List.mem_append] at hx
    rcases hx with hx | hx
    · by_cases hc : noEscape c = true
      · simp only [qsEscapeChar, hc, if_true, List.mem_singleton] at hx
        subst hx
        exact ⟨(noEscape_ne x hc).1, (noEscape_ne x hc).2.1⟩
      · have hc2 : noEscape c = false := by simpa using hc
        simp only [qsEscapeChar, hc2, Bool.false_eq_true, if_false] at hx
        have hlt : c.toNat < 0x110000 := by
          have := char_toNat_valid c
          omega
        rcases mem_hexBytes _ (utf8Bytes_lt _ hlt) x hx with h | ⟨n, hn, h⟩
        · subst h
          exact ⟨by decide, by decide⟩
        · subst h
          exact ⟨(hexDigit_ne n hn).1, (hexDigit_ne n hn).2.1⟩
    · exact ih hx

/-! ## Cutting a string at a separator -/

theorem splitOnChar_not_mem (sep : Char) (a : List Char) (h : sep ∉ a) :
    splitOnChar sep a = [a] := by
  induction a with
  | nil => rfl
  | cons c a ih =>
    simp only [List.mem_cons, not_or] at h
    have hc : ¬ c = sep := fun e => h.1 e.symm
    simp only [splitOnChar, hc, if_false, ih h.2]

theorem splitOnChar_append (sep : Char) (a b : List Char) (h : sep ∉ a) :
    splitOnChar sep (a ++ sep :: b) = a :: splitOnChar sep b := by
  induction a with
  | nil => simp [splitOnChar]
  | cons c a ih =>
    simp only [List.mem_cons, not_or] at h
    have hc : ¬ c = sep := fun e => h.1 e.symm
    have e := ih h.2
    rw [List.cons_append, splitOnChar, if_neg hc, e]

theorem splitFirst_append (sep : Char) (a b : List Char) (h : sep ∉ a) :
    splitFirst sep (a ++ sep :: b) = (a, b) := by
  induction a with
  | nil => simp [splitFirst]
  | cons c a ih =>
    simp only [List.mem_cons, not_or] at h
    have hc : ¬ c = sep := fun e => h.1 e.symm
    have e := ih h.2
    rw [List.cons_append, splitFirst, if_neg hc, e]

/-! ## The round trip of `generateWindowUrl` -/

theorem generateWindowUrl_data (contentPage url partition : String) :
    (generateWindowUrl contentPage (JSValue.str url) (JSValue.str partition)).data =
      ("file://".data ++ contentPage.data) ++ '?' ::
        (("url".data ++ '=' :: qsEscapeChars url.data) ++ '&' ::
          ("partition".data ++ '=' :: qsEscapeChars partition.data)) := by
  rw [generateWindowUrl, qsStringify_url_partition]
  simp [String.data_append, qsEscape]

theorem qsParseField_escaped (key value : List Char) (hk : '=' ∉ qsEscapeChars key) :
    qsParseField (qsEscapeChars key ++ '=' :: qsEscapeChars value) =
      some (String.mk key, String.mk value) := by
  simp only [qsParseField, splitFirst_append '=' _ _ hk, qsUnescape_qsEscapeChars]

/-- C4: for every string `url`, every string `partition` and a content-page path
without `?`, standard query-string decoding of the part of
`generateWindowUrl(url, partition)` after its first `?` yields exactly two
parameters, `url` with the value of the argument `url` and `partition` with the
value of the argument `partition`. -/
theorem C4_generateWindowUrl_roundtrip (contentPage url partition : String)
    (h : '?' ∉ contentPage.data) :
    qsParse (queryOf (generateWindowUrl contentPage (JSValue.str url) (JSValue.str partition))) =
      some [("url", url), ("partition", partition)] := by
  have hq : '?' ∉ "file://".data ++ contentPage.data := by
    intro hm
    rcases List.mem_append.mp hm with hm | hm
    · exact absurd hm (by decide)
    · exact h hm
  have hurl : qsEscapeChars "url".data = "url".data := by decide
  have hpart : qsEscapeChars "partition".data = "partition".data := by decide
  have hamp : '&' ∉ "url".data ++ '=' :: qsEscapeChars url.data := by
    intro hm
    rcases List.mem_append.mp hm with hm | hm
    · exact absurd hm (by decide)
    · rcases List.mem_cons.mp hm with hm | hm
      · exact absurd hm (by decide)
      · exact (mem_qsEscapeChars _ _ hm).1 rfl
  have hamp2 : '&' ∉ "partition".data ++ '=' :: qsEscapeChars partition.data := by
    intro hm
    rcases List.mem_append.mp hm with hm | hm
    · exact absurd hm (by decide)
    · rcases List.mem_cons.mp hm with hm | hm
      · exact absurd hm (by decide)
      · exact (mem_qsEscapeChars _ _ hm).1 rfl
  have hf1 : qsParseField ("url".data ++ '=' :: qsEscapeChars url.data) =
      some ("url", url) := by
    have := qsParseField_escaped "url".data url.data (by rw [hurl]; decide)
    rw [hurl] at this
    exact this
  have hf2 : qsParseField ("partition".data ++ '=' :: qsEscapeChars partition.data) =
      some ("partition", partition) := by
    have := qsParseField_escaped "partition".data partition.data (by rw [hpart]; decide)
    rw [hpart] at this
    exact this
  have hne1 : ("url".data ++ '=' :: qsEscapeChars url.data).isEmpty = false := rfl
  have hne2 : ("partition".data ++ '=' :: qsEscapeChars partition.data).isEmpty = false := rfl
  simp only [qsParse, queryOf, generateWindowUrl_data, splitFirst_append '?' _ _ hq,
    splitOnChar_append '&' _ _ hamp, splitOnChar_not_mem '&' _ hamp2, List.filter, hne1, hne2,
    Bool.not_false, qsParseFields, hf1, hf2]

/-- C4, the instance of the specification: `https://example.com/a?b=1` and `partA`. -/
theorem C4_generateWindowUrl_roundtrip_witness :
    '?' ∉ "/app/scenes/content/content.html".data ∧
    qsParse (queryOf (generateWindowUrl "/app/scenes/content/content.html"
      (JSValue.str "https://example.com/a?b=1") (JSValue.str "partA"))) =
      some [("url", "https://example.com/a?b=1"), ("partition", "partA")] :=
  ⟨by decide,
   C4_generateWindowUrl_roundtrip "/app/scenes/content/content.html"
     "https://example.com/a?b=1" "partA" (by decide)⟩

end Wavebox
